import Mathlib

/-!
Shallow embedding of the Game-233-Empire engine (sources: `units.py`, `map.py`,
`combat.py`, `player.py`, `savegame.py`, `main.py`).

Conventions of the embedding:
* Python `int` becomes `Int` (hp may go negative), grid dimensions become `Nat`.
* Python lists-of-lists become `List (List _)`; in-place element writes become
  pointwise rebuilds (`List.set` / `mapIdx`).  Reads that Python performs only
  under bounds guards use `getD` with an inert default.
* Python `dict` keyed by player name becomes an association list, looked up by
  first match (the game never creates duplicate player keys).
* `random.random()` draws become an explicit stream `Nat → ℚ` consumed at an
  index; the combat loop, which terminates only with probability 1, takes a
  fuel argument and returns `none` on exhaustion.
* Global UI statistics (`GAME_STATS`, `BATTLE_REPORTS`) are pure logging and
  are not part of the embedded state.
* The `Destroyer` placeholder class is never constructed by the game and is
  omitted.
-/

namespace Empire

/-! ### units.py -/

inductive UnitType
  | army
  | fighter
  | carrier
  | nuclearMissile
  deriving DecidableEq, Repr

structure Unit where
  type : UnitType
  x : Int
  y : Int
  owner : String
  symbol : Char
  max_hp : Int
  hp : Int
  movement_points : Int
  fuel : Option Int
  moves_left : Int
  home_city : Option (Int × Int)
  /-- Missile-only attributes; on non-missiles they keep the inert defaults. -/
  direction_dx : Option Int
  direction_dy : Option Int
  traveled : Int
  deriving DecidableEq, Repr

def Unit.is_alive (u : Unit) : Bool :=
  decide (0 < u.hp)

def Unit.reset_moves (u : Unit) : Unit :=
  { u with moves_left := u.movement_points }

def Unit.can_move (u : Unit) : Bool :=
  decide (0 < u.moves_left) && u.is_alive

/-- `Army.__init__`: symbol 'A', hp 10/10, 1 movement point. -/
def armyNew (x y : Int) (owner : String) : Unit :=
  { type := .army, x := x, y := y, owner := owner, symbol := 'A',
    max_hp := 10, hp := 10, movement_points := 1, fuel := none, moves_left := 1,
    home_city := none, direction_dx := none, direction_dy := none, traveled := 0 }

/-- `Fighter.__init__`: symbol 'F', hp 8/8, 12 movement points (moves_left keeps
the dataclass default 1 until `reset_moves`). -/
def fighterNew (x y : Int) (owner : String) : Unit :=
  { type := .fighter, x := x, y := y, owner := owner, symbol := 'F',
    max_hp := 8, hp := 8, movement_points := 12, fuel := none, moves_left := 1,
    home_city := none, direction_dx := none, direction_dy := none, traveled := 0 }

/-- `Carrier.__init__`: symbol 'C', hp 16/16, 3 movement points. -/
def carrierNew (x y : Int) (owner : String) : Unit :=
  { type := .carrier, x := x, y := y, owner := owner, symbol := 'C',
    max_hp := 16, hp := 16, movement_points := 3, fuel := none, moves_left := 1,
    home_city := none, direction_dx := none, direction_dy := none, traveled := 0 }

/-- `NuclearMissile.__init__`: symbol 'M', hp 1/1, 40 movement points,
direction lock unset, traveled 0. -/
def missileNew (x y : Int) (owner : String) : Unit :=
  { type := .nuclearMissile, x := x, y := y, owner := owner, symbol := 'M',
    max_hp := 1, hp := 1, movement_points := 40, fuel := none, moves_left := 1,
    home_city := none, direction_dx := none, direction_dy := none, traveled := 0 }

/-- Inert default for guarded `getD` reads that Python never reaches. -/
def dummyUnit : Unit := armyNew 0 0 ""

/-! ### map.py : City and GameMap data -/

structure City where
  x : Int
  y : Int
  owner : Option String
  production_type : Option String
  production_progress : Int
  production_cost : Int
  support_cap : Int
  deriving DecidableEq, Repr

/-- `City(x, y, ...)` dataclass defaults. -/
def cityNew (x y : Int) (owner : Option String) : City :=
  { x := x, y := y, owner := owner, production_type := none,
    production_progress := 0, production_cost := 0, support_cap := 2 }

def dummyCity : City := cityNew 0 0 none

abbrev TileGrid := List (List Char)
abbrev BoolGrid := List (List Bool)
abbrev FowGrids := List (String × BoolGrid)

structure GameMap where
  width : Nat
  height : Nat
  tiles : TileGrid
  cities : List City
  fog : BoolGrid
  explored : FowGrids
  visible : FowGrids
  deriving DecidableEq, Repr

/-! ### map.py : per-player fog-of-war helpers -/

def falseGrid (w h : Nat) : BoolGrid :=
  (List.range h).map (fun _ => (List.range w).map (fun _ => false))

def fowLookup (g : FowGrids) (p : String) : Option BoolGrid :=
  (g.find? (fun e => e.1 == p)).map Prod.snd

def fowUpdate (g : FowGrids) (p : String) (f : BoolGrid → BoolGrid) : FowGrids :=
  match g with
  | [] => []
  | e :: rest => if e.1 == p then (e.1, f e.2) :: rest else e :: fowUpdate rest p f

/-- `GameMap.init_fow`: replace both dicts by freshly allocated all-false grids. -/
def GameMap.init_fow (m : GameMap) (players : List String) : GameMap :=
  { m with explored := players.map (fun p => (p, falseGrid m.width m.height)),
           visible := players.map (fun p => (p, falseGrid m.width m.height)) }

/-- The double loop of `clear_visible_for`: `v[y][x] = False` for all
`y < height`, `x < width`. -/
def clearGrid (w h : Nat) (g : BoolGrid) : BoolGrid :=
  g.mapIdx (fun yy row =>
    if yy < h then row.mapIdx (fun xx b => if xx < w then false else b) else row)

def GameMap.clear_visible_for (m : GameMap) (player : String) : GameMap :=
  if (fowLookup m.visible player).isSome then
    { m with visible := fowUpdate m.visible player (clearGrid m.width m.height) }
  else m

/-- Cell (xx, yy) is written by `mark_visible_circle(player, x, y, radius)`:
it lies in the clamped iteration rectangle and passes the squared-distance
test `(xx-x)² + (yy-y)² ≤ radius²`. -/
def inCircle (x y radius xx yy : Int) : Bool :=
  decide (x - radius ≤ xx) && decide (xx ≤ x + radius) &&
  decide (y - radius ≤ yy) && decide (yy ≤ y + radius) &&
  decide ((xx - x) * (xx - x) + (yy - y) * (yy - y) ≤ radius * radius)

def markGrid (w h : Nat) (x y radius : Int) (g : BoolGrid) : BoolGrid :=
  g.mapIdx (fun yy row =>
    if yy < h then
      row.mapIdx (fun xx b =>
        if xx < w && inCircle x y radius (xx : Int) (yy : Int) then true else b)
    else row)

def GameMap.mark_visible_circle (m : GameMap) (player : String) (x y radius : Int) :
    GameMap :=
  if (fowLookup m.visible player).isSome && (fowLookup m.explored player).isSome then
    { m with visible := fowUpdate m.visible player (markGrid m.width m.height x y radius),
             explored := fowUpdate m.explored player (markGrid m.width m.height x y radius) }
  else m

/-! ### player.py and the session state of main.py -/

structure PlayerRec where
  name : String
  is_ai : Bool
  cities : List (Int × Int)
  deriving DecidableEq, Repr

structure GameState where
  world : GameMap
  units : List Unit
  p1 : PlayerRec
  p2 : PlayerRec
  current_player : String
  turn_number : Int
  deriving DecidableEq, Repr

/-! ### main.py : queries -/

def UNIT_SIGHT : Int := 3
def CITY_SIGHT : Int := 5

def unit_at (units : List Unit) (x y : Int) : Option Unit :=
  units.find? (fun u => u.is_alive && u.x == x && u.y == y)

def unitIdxAt (units : List Unit) (x y : Int) : Option Nat :=
  units.findIdx? (fun u => u.is_alive && u.x == x && u.y == y)

def city_at (cities : List City) (x y : Int) : Option City :=
  cities.find? (fun c => c.x == x && c.y == y)

def cityIdxAt (cities : List City) (x y : Int) : Option Nat :=
  cities.findIdx? (fun c => c.x == x && c.y == y)

def inBoundsb (m : GameMap) (x y : Int) : Bool :=
  decide (0 ≤ x) && decide (x < (m.width : Int)) &&
  decide (0 ≤ y) && decide (y < (m.height : Int))

def tileAt (m : GameMap) (x y : Int) : Char :=
  (m.tiles.getD y.toNat []).getD x.toNat '.'

def is_land (m : GameMap) (x y : Int) : Bool :=
  inBoundsb m x y && (tileAt m x y == '+')

/-- Python `a == b` where `a : Optional[str]`, `b : str`. -/
def optOwnerEq (co : Option String) (o : String) : Bool :=
  match co with
  | some s => s == o
  | none => false

/-! ### main.py : city capture -/

/-- `try_capture_city`: flips the city under the unit to the unit's owner and
resets its production to Army at cost 8; fighters never capture. -/
def try_capture_city (m : GameMap) (u : Unit) : GameMap × Bool :=
  match cityIdxAt m.cities u.x u.y with
  | none => (m, false)
  | some ci =>
    if u.type = .fighter then (m, false)
    else
      let c := m.cities.getD ci dummyCity
      if optOwnerEq c.owner u.owner then (m, false)
      else
        let c2 : City := { c with owner := some u.owner, production_type := some "Army",
                                  production_cost := 8, production_progress := 0 }
        ({ m with cities := m.cities.set ci c2 }, true)

/-! ### combat.py -/

def clampChance (p : ℚ) : ℚ := max (1/5) (min (4/5) p)

/-- The `while attacker.hp > 0 and defender.hp > 0` exchange loop, with the
draw stream `rng` consumed from index `i` and an explicit fuel (`none` on
exhaustion; the Python loop terminates only with probability 1).
Returns `(attacker_alive, defender_alive, attacker_hp, defender_hp, next_i)`. -/
def combatLoop (rng : Nat → ℚ) (ah dh : ℚ) :
    Nat → Nat → Int → Int → Option (Bool × Bool × Int × Int × Nat)
  | fuel, i, a, d =>
    if 0 < a ∧ 0 < d then
      match fuel with
      | 0 => none
      | fuel + 1 =>
        let d1 := if rng i < ah then d - 3 else d
        if d1 ≤ 0 then some (decide (0 < a), decide (0 < d1), a, d1, i + 1)
        else
          let a1 := if rng (i + 1) < dh then a - 2 else a
          combatLoop rng ah dh fuel (i + 2) a1 d1
    else some (decide (0 < a), decide (0 < d), a, d, i)

/-- `resolve_attack` on the hp of the two units (the only fields it touches). -/
def resolve_attack (fuel : Nat) (rng : Nat → ℚ) (i : Nat) (a_hp d_hp : Int)
    (attacker_hit defender_hit : ℚ) : Option (Bool × Bool × Int × Int × Nat) :=
  combatLoop rng (clampChance attacker_hit) (clampChance defender_hit) fuel i a_hp d_hp

/-! ### main.py : movement -/

def setUnit (s : GameState) (i : Nat) (u : Unit) : GameState :=
  { s with units := s.units.set i u }

/-- The victory test run after a capture: the opponent of the mover owns zero
cities and the mover owns at least one. -/
def victoryAfterCapture (s : GameState) (uowner : String) : Bool :=
  let opponent := if uowner == "P1" then "P2" else "P1"
  let oppCount := (s.world.cities.filter (fun c => optOwnerEq c.owner opponent)).length
  let myCount := (s.world.cities.filter (fun c => optOwnerEq c.owner uowner)).length
  decide (oppCount = 0) && decide (0 < myCount)

abbrev MoveResult := GameState × Bool × Bool × Bool × String

/-- Missile auto-detonation check after a step or hop (uses `detonate_missile`
defined below; forward declaration via mutual block is avoided by defining
detonation first). -/
def detonate_units_loop (x y r2 : Int) : List Unit → List Unit × Nat
  | [] => ([], 0)
  | v :: rest =>
    let r := detonate_units_loop x y r2 rest
    if v.is_alive && decide ((v.x - x) * (v.x - x) + (v.y - y) * (v.y - y) ≤ r2) then
      ({ v with hp := 0 } :: r.1, r.2 + 1)
    else (v :: r.1, r.2)

def detonate_cities_loop (x y r2 : Int) : List City → List City × Nat
  | [] => ([], 0)
  | c :: rest =>
    let r := detonate_cities_loop x y r2 rest
    if decide ((c.x - x) * (c.x - x) + (c.y - y) * (c.y - y) ≤ r2) then
      if c.owner.isSome then ({ c with owner := none } :: r.1, r.2 + 1)
      else (c :: r.1, r.2)
    else (c :: r.1, r.2)

/-- `detonate_missile(world, units, owner, x, y, radius)`: kill every alive
unit within squared distance `radius²` (any owner), neutralize every city in
the same circle keeping its production fields, and return the two counts.
(The per-player kill/loss statistics it also updates are UI logging only.) -/
def detonate_missile (s : GameState) (_owner : String) (x y radius : Int) :
    GameState × Nat × Nat :=
  let r2 := radius * radius
  let ru := detonate_units_loop x y r2 s.units
  let rc := detonate_cities_loop x y r2 s.world.cities
  ({ s with units := ru.1, world := { s.world with cities := rc.1 } }, ru.2, rc.2)

/-- Shared tail of the missile branch of `try_move_unit`: auto-detonate when
the cumulative range reaches 40 or moves run out. -/
def missile_finish (s : GameState) (ui : Nat) : Option MoveResult :=
  let u := s.units.getD ui dummyUnit
  if 40 ≤ u.traveled ∨ u.moves_left ≤ 0 then
    let r := detonate_missile s u.owner u.x u.y 10
    let s2 := setUnit r.1 ui { (r.1.units.getD ui dummyUnit) with hp := 0 }
    some (s2, true, false, false,
      "Missile detonated: units " ++ toString r.2.1 ++ ", cities " ++ toString r.2.2)
  else some (s, true, false, false, "")

/-- Missile step/hop once the direction test passed (the unit at `ui` already
carries the direction lock). -/
def missile_advance (s : GameState) (ui : Nat) (dx dy nx ny : Int) : Option MoveResult :=
  let u := s.units.getD ui dummyUnit
  match unit_at s.units nx ny with
  | some _ =>
    if u.moves_left < 2 then some (s, false, false, false, "Missile hop needs 2 moves")
    else
      let nx2 := nx + dx
      let ny2 := ny + dy
      if ¬ (inBoundsb s.world nx2 ny2 = true) then
        some (s, false, false, false, "Missile hop out of bounds")
      else if (unit_at s.units nx2 ny2).isSome then
        some (s, false, false, false, "Missile hop landing occupied")
      else
        missile_finish
          (setUnit s ui { u with x := nx2, y := ny2,
                                 moves_left := u.moves_left - 2,
                                 traveled := u.traveled + 2 }) ui
  | none =>
    missile_finish
      (setUnit s ui { u with x := nx, y := ny,
                             moves_left := u.moves_left - 1,
                             traveled := u.traveled + 1 }) ui

/-- Combat matchup odds (`try_move_unit` body). -/
def baseOdds (u blocking : Unit) : ℚ × ℚ :=
  if u.type = .fighter ∧ blocking.type = .army then (53/100, 47/100)
  else if u.type = .fighter then (60/100, 40/100)
  else (53/100, 52/100)

/-- `try_move_unit(world, units, u, dx, dy)` on the unit at index `ui`.
Returns `some (state, moved_or_fought, captured_city, immediate_victory,
message)`, or `none` when the combat fuel runs out. -/
def try_move_unit (fuel : Nat) (rng : Nat → ℚ) (ri : Nat) (s : GameState) (ui : Nat)
    (dx dy : Int) : Option MoveResult :=
  if ¬ (ui < s.units.length) then some (s, false, false, false, "") else
  let u := s.units.getD ui dummyUnit
  if ¬ (u.can_move = true) then some (s, false, false, false, "") else
  let nx := u.x + dx
  let ny := u.y + dy
  if ¬ (inBoundsb s.world nx ny = true) then some (s, false, false, false, "") else
  if u.type ≠ .fighter ∧ u.type ≠ .carrier ∧ u.type ≠ .nuclearMissile ∧
      ¬ (is_land s.world nx ny = true) then some (s, false, false, false, "") else
  if u.type = .carrier ∧ (inBoundsb s.world nx ny = true) ∧ tileAt s.world nx ny ≠ '.' then
    some (s, false, false, false, "") else
  if u.type = .nuclearMissile then
    match u.direction_dx, u.direction_dy with
    | none, none =>
      if dx = 0 ∧ dy = 0 then some (s, false, false, false, "")
      else
        missile_advance
          (setUnit s ui { u with direction_dx := some dx, direction_dy := some dy })
          ui dx dy nx ny
    | _, _ =>
      if some dx ≠ u.direction_dx ∨ some dy ≠ u.direction_dy then
        some (s, false, false, false, "Missile locked to direction")
      else missile_advance s ui dx dy nx ny
  else
    match unitIdxAt s.units nx ny with
    | some bi =>
      let blocking := s.units.getD bi dummyUnit
      if blocking.owner == u.owner then
        if u.type = .fighter then
          if 2 ≤ u.moves_left then
            let nx2 := nx + dx
            let ny2 := ny + dy
            if inBoundsb s.world nx2 ny2 then
              if (unit_at s.units nx2 ny2).isNone then
                let s2 := setUnit s ui { u with x := nx2, y := ny2,
                                                moves_left := u.moves_left - 2 }
                let cap := try_capture_city s2.world (s2.units.getD ui dummyUnit)
                some ({ s2 with world := cap.1 }, true, false, false, "Hopped over friendly")
              else some (s, false, false, false, "Hop blocked: landing occupied")
            else some (s, false, false, false, "Hop blocked: out of bounds")
          else some (s, false, false, false, "Need 2 moves to hop over friendly")
        else some (s, false, false, false, "")
      else
        let odds := baseOdds u blocking
        let cdef := city_at s.world.cities nx ny
        let bonus := match cdef with
          | some c => optOwnerEq c.owner blocking.owner
          | none => false
        let a_hit := if bonus then odds.1 - 15/100 else odds.1
        let d_hit := if bonus then odds.2 + 15/100 else odds.2
        match resolve_attack fuel rng ri u.hp blocking.hp a_hit d_hit with
        | none => none
        | some (attacker_alive, defender_alive, a_hp, d_hp, _) =>
          let s1 := setUnit (setUnit s ui { u with hp := a_hp }) bi
                      { blocking with hp := d_hp }
          if ¬ (defender_alive = true) then
            let s2 := setUnit s1 bi { (s1.units.getD bi dummyUnit) with hp := 0 }
            if attacker_alive then
              let u2 := s2.units.getD ui dummyUnit
              let s3 := setUnit s2 ui { u2 with x := nx, y := ny,
                                                moves_left := u2.moves_left - 1 }
              let cap := try_capture_city s3.world (s3.units.getD ui dummyUnit)
              let s4 := { s3 with world := cap.1 }
              if cap.2 then
                some (s4, true, true, victoryAfterCapture s4 u.owner, "Defender destroyed")
              else some (s4, true, false, false, "Defender destroyed")
            else some (s2, true, false, false, "Attacker destroyed")
          else
            let s2 := if ¬ (attacker_alive = true) then
                setUnit s1 ui { (s1.units.getD ui dummyUnit) with hp := 0 }
              else s1
            some (s2, true, false, false, "Attacker destroyed")
    | none =>
      let s1 := setUnit s ui { u with x := nx, y := ny, moves_left := u.moves_left - 1 }
      let cap := try_capture_city s1.world (s1.units.getD ui dummyUnit)
      let s2 := { s1 with world := cap.1 }
      if cap.2 then
        some (s2, true, true, victoryAfterCapture s2 u.owner, "City captured")
      else some (s2, true, false, false, "")

/-! ### main.py : production system -/

def is_tile_free (units : List Unit) (x y : Int) : Bool :=
  (unit_at units x y).isNone

def is_supported_by_city (u : Unit) (c : City) : Bool :=
  decide (u.type = .army) && optOwnerEq c.owner u.owner && (u.home_city == some (c.x, c.y))

def supportedCount (units : List Unit) (c : City) : Nat :=
  (units.filter (fun u => is_supported_by_city u c && u.is_alive)).length

/-- Python `city.owner or ""`. -/
def ownerStr (o : Option String) : String :=
  match o with
  | some s => s
  | none => ""

def spawn_positions (c : City) : List (Int × Int) :=
  [(c.x, c.y),
   (c.x + 1, c.y), (c.x - 1, c.y), (c.x, c.y + 1), (c.x, c.y - 1),
   (c.x + 1, c.y + 1), (c.x - 1, c.y - 1), (c.x + 1, c.y - 1), (c.x - 1, c.y + 1)]

/-- `spawn_army`: support cap first, then the fixed 9-candidate search for a
free land tile; the new Army gets this city as home. -/
def spawn_army (m : GameMap) (units : List Unit) (c : City) : List Unit × Bool :=
  if (c.support_cap : Int) ≤ (supportedCount units c : Int) then (units, false)
  else
    match (spawn_positions c).find?
        (fun p => inBoundsb m p.1 p.2 && is_land m p.1 p.2 && is_tile_free units p.1 p.2) with
    | some p =>
      let nu := { (armyNew p.1 p.2 (ownerStr c.owner)).reset_moves with
                    home_city := some (c.x, c.y) }
      (units ++ [nu], true)
    | none => (units, false)

/-- `spawn_fighter`: only on the city tile, no support cap. -/
def spawn_fighter (m : GameMap) (units : List Unit) (c : City) : List Unit × Bool :=
  if inBoundsb m c.x c.y && is_tile_free units c.x c.y then
    let nu := { (fighterNew c.x c.y (ownerStr c.owner)).reset_moves with
                  home_city := some (c.x, c.y) }
    (units ++ [nu], true)
  else (units, false)

/-- `spawn_missile`: only on the city tile. -/
def spawn_missile (m : GameMap) (units : List Unit) (c : City) : List Unit × Bool :=
  if inBoundsb m c.x c.y && is_tile_free units c.x c.y then
    let nu := { (missileNew c.x c.y (ownerStr c.owner)).reset_moves with
                  home_city := some (c.x, c.y) }
    (units ++ [nu], true)
  else (units, false)

def carrier_candidates (c : City) : List (Int × Int) :=
  [(c.x + 1, c.y), (c.x - 1, c.y), (c.x, c.y + 1), (c.x, c.y - 1),
   (c.x + 1, c.y + 1), (c.x - 1, c.y - 1), (c.x + 1, c.y - 1), (c.x - 1, c.y + 1)]

/-- `spawn_carrier`: first free adjacent ocean tile, never the city tile. -/
def spawn_carrier (m : GameMap) (units : List Unit) (c : City) : List Unit × Bool :=
  match (carrier_candidates c).find?
      (fun p => inBoundsb m p.1 p.2 && (tileAt m p.1 p.2 == '.') &&
                is_tile_free units p.1 p.2) with
  | some p =>
    let nu := { (carrierNew p.1 p.2 (ownerStr c.owner)).reset_moves with
                  home_city := some (c.x, c.y) }
    (units ++ [nu], true)
  | none => (units, false)

inductive SpawnKind
  | army
  | fighter
  | carrier
  | missile
  deriving DecidableEq, Repr

/-- `PRODUCTION_CATALOG`: cost and spawn procedure per unit-type tag. -/
def PRODUCTION_CATALOG (t : String) : Option (Int × SpawnKind) :=
  if t = "Army" then some (12, .army)
  else if t = "Fighter" then some (20, .fighter)
  else if t = "Carrier" then some (32, .carrier)
  else if t = "NuclearMissile" then some (75, .missile)
  else none

def run_spawn (k : SpawnKind) (m : GameMap) (units : List Unit) (c : City) :
    List Unit × Bool :=
  match k with
  | .army => spawn_army m units c
  | .fighter => spawn_fighter m units c
  | .carrier => spawn_carrier m units c
  | .missile => spawn_missile m units c

/-- One iteration of the city loop of `advance_production_and_spawn`. -/
def advance_one (m : GameMap) (c : City) (units : List Unit) : City × List Unit :=
  if c.owner = none ∨ c.owner = some "neutral" then (c, units)
  else
    match c.production_type with
    | none => (c, units)
    | some t =>
      if t = "" then (c, units)
      else if c.production_cost ≤ 0 then (c, units)
      else
        let prog := c.production_progress + 1
        match PRODUCTION_CATALOG t with
        | none => ({ c with production_progress := prog }, units)
        | some entry =>
          if entry.1 ≤ prog then
            let r := run_spawn entry.2 m units c
            if r.2 then ({ c with production_progress := 0 }, r.1)
            else ({ c with production_progress := c.production_cost }, r.1)
          else ({ c with production_progress := prog }, units)

def advance_cities (m : GameMap) : List City → List Unit → List City × List Unit
  | [], units => ([], units)
  | c :: rest, units =>
    let r := advance_one m c units
    let rr := advance_cities m rest r.2
    (r.1 :: rr.1, rr.2)

/-- End-of-turn healing: +1 hp (capped) for alive units standing on a city
owned by the same player. -/
def heal_unit (cities : List City) (u : Unit) : Unit :=
  if ¬ (u.is_alive = true) then u
  else
    match city_at cities u.x u.y with
    | some c =>
      if optOwnerEq c.owner u.owner ∧ u.hp < u.max_hp then
        { u with hp := min u.max_hp (u.hp + 1) }
      else u
    | none => u

/-- `advance_production_and_spawn(world, units)`: the city loop then healing. -/
def advance_production_and_spawn (s : GameState) : GameState :=
  let r := advance_cities s.world s.world.cities s.units
  let units2 := r.2.map (heal_unit r.1)
  { s with world := { s.world with cities := r.1 }, units := units2 }

/-! ### main.py : fighter basing, moves reset, visibility -/

def basing_dirs : List (Int × Int) :=
  [(1, 0), (-1, 0), (0, 1), (0, -1), (1, 1), (-1, -1), (1, -1), (-1, 1)]

def fighter_based (units : List Unit) (owner : String) (u : Unit) : Bool :=
  basing_dirs.any (fun d =>
    match unit_at units (u.x + d.1) (u.y + d.2) with
    | some v => v.is_alive && decide (v.type = .carrier) && (v.owner == owner)
    | none => false)

/-- One iteration of `enforce_fighter_basing` over the unit at index `i` of the
current list (in-place kills are visible to later iterations). -/
def enforce_step (m : GameMap) (owner : String) (units : List Unit) (i : Nat) :
    List Unit :=
  let u := units.getD i dummyUnit
  if ¬ (u.is_alive = true) then units
  else if decide (u.type = .fighter) && (u.owner == owner) then
    let onOwnCity := match city_at m.cities u.x u.y with
      | some c => optOwnerEq c.owner owner
      | none => false
    if onOwnCity then units
    else if fighter_based units owner u then units
    else units.set i { u with hp := 0 }
  else units

def enforce_fighter_basing (m : GameMap) (units : List Unit) (owner : String) :
    List Unit :=
  (List.range units.length).foldl (enforce_step m owner) units

def reset_moves_for_owner (units : List Unit) (owner : String) : List Unit :=
  units.map (fun u => if (u.owner == owner) && u.is_alive then u.reset_moves else u)

/-- `recompute_visibility(world, owner, units)`: clear, then mark circles
around owned cities (radius `CITY_SIGHT`) and alive owned units (radius 5 for
fighters, else `UNIT_SIGHT`). -/
def recompute_visibility (s : GameState) (owner : String) : GameState :=
  let m1 := (s.world.clear_visible_for owner)
  let m2 := s.world.cities.foldl
    (fun m c => if optOwnerEq c.owner owner then
        m.mark_visible_circle owner c.x c.y CITY_SIGHT
      else m) m1
  let m3 := s.units.foldl
    (fun m u => if (u.owner == owner) && u.is_alive then
        m.mark_visible_circle owner u.x u.y (if u.type = .fighter then 5 else UNIT_SIGHT)
      else m) m2
  { s with world := m3 }

/-! ### main.py : the two end-turn code paths -/

def opponent_of (s : GameState) : String :=
  if s.current_player == s.p1.name then s.p2.name else s.p1.name

/-- Missile pass of the fallback UI end-turn: every alive `NuclearMissile`
(no owner filter) is detonated at its tile with radius 10 and killed. -/
def missile_sweep_step (s : GameState) (i : Nat) : GameState :=
  let u := s.units.getD i dummyUnit
  if decide (u.type = .nuclearMissile) && u.is_alive then
    let r := detonate_missile s u.owner u.x u.y 10
    setUnit r.1 i { (r.1.units.getD i dummyUnit) with hp := 0 }
  else s

def missile_sweep (s : GameState) : GameState :=
  (List.range s.units.length).foldl missile_sweep_step s

def cityCount (s : GameState) (owner : String) : Nat :=
  (s.world.cities.filter (fun c => optOwnerEq c.owner owner)).length

/-- The `'e'` (end turn) branch of `run_fallback`: production+healing, missile
sweep, fighter basing, victory check, then handoff (switch player, bump turn,
reset moves, recompute visibility).  The second component is the game-over
flag (`break` on victory). -/
def end_turn_fallback (s : GameState) : GameState × Bool :=
  let s1 := advance_production_and_spawn s
  let s2 := missile_sweep s1
  let s3 := { s2 with units := enforce_fighter_basing s2.world s2.units s2.current_player }
  let opp := opponent_of s3
  if cityCount s3 opp = 0 ∧ 0 < cityCount s3 s3.current_player then (s3, true)
  else
    let s4 := { s3 with current_player := opp, turn_number := s3.turn_number + 1 }
    let s5 := { s4 with units := reset_moves_for_owner s4.units opp }
    (recompute_visibility s5 opp, false)

/-- The space-key (end turn) branch of `run_curses`: identical to the fallback
end-turn except that it contains no missile sweep. -/
def end_turn_curses (s : GameState) : GameState × Bool :=
  let s1 := advance_production_and_spawn s
  let s2 := { s1 with units := enforce_fighter_basing s1.world s1.units s1.current_player }
  let opp := opponent_of s2
  if cityCount s2 opp = 0 ∧ 0 < cityCount s2 s2.current_player then (s2, true)
  else
    let s3 := { s2 with current_player := opp, turn_number := s2.turn_number + 1 }
    let s4 := { s3 with units := reset_moves_for_owner s3.units opp }
    (recompute_visibility s4 opp, false)

/-! ### savegame.py + the load code of main.py -/

structure UnitData where
  x : Int
  y : Int
  owner : String
  symbol : Char
  max_hp : Int
  hp : Int
  movement_points : Int
  fuel : Option Int
  moves_left : Int
  home_city : Option (Int × Int)
  direction_dx : Option Int
  direction_dy : Option Int
  traveled : Int
  unit_type : String
  deriving DecidableEq, Repr

def typeName (t : UnitType) : String :=
  match t with
  | .army => "Army"
  | .fighter => "Fighter"
  | .carrier => "Carrier"
  | .nuclearMissile => "NuclearMissile"

/-- `serialize_units`: dump every attribute of the unit plus an explicit
`unit_type` tag (non-missiles simply carry the inert direction defaults). -/
def serializeUnit (u : Unit) : UnitData :=
  { x := u.x, y := u.y, owner := u.owner, symbol := u.symbol, max_hp := u.max_hp,
    hp := u.hp, movement_points := u.movement_points, fuel := u.fuel,
    moves_left := u.moves_left, home_city := u.home_city,
    direction_dx := u.direction_dx, direction_dy := u.direction_dy,
    traveled := u.traveled, unit_type := typeName u.type }

structure MapData where
  width : Nat
  height : Nat
  tiles : TileGrid
  fog : BoolGrid
  cities : List City
  explored : FowGrids
  deriving DecidableEq, Repr

structure PlayerData where
  name : String
  is_ai : Bool
  cities : List (Int × Int)
  deriving DecidableEq, Repr

structure SaveData where
  map : MapData
  units : List UnitData
  players : List PlayerData
  turn_number : Int
  current_player : String
  deriving DecidableEq, Repr

/-- `save_full_game` payload (`serialize_map`, `serialize_units`,
`serialize_players`); the `visible` grids are not saved. -/
def serializeGame (s : GameState) : SaveData :=
  { map := { width := s.world.width, height := s.world.height, tiles := s.world.tiles,
             fog := s.world.fog, cities := s.world.cities, explored := s.world.explored },
    units := s.units.map serializeUnit,
    players := [{ name := s.p1.name, is_ai := s.p1.is_ai, cities := s.p1.cities },
                { name := s.p2.name, is_ai := s.p2.is_ai, cities := s.p2.cities }],
    turn_number := s.turn_number,
    current_player := s.current_player }

/-- The per-unit rehydration of the load path in `run_fallback`/`run_curses`:
construct a fresh unit of the tagged type (unknown tags fall back to Army) and
restore the generic fields; the missile-specific `direction_dx`,
`direction_dy` and `traveled` attributes are left at their constructor
defaults. -/
def deserializeUnit (ud : UnitData) : Unit :=
  let base :=
    if ud.unit_type = "Fighter" then fighterNew ud.x ud.y ud.owner
    else if ud.unit_type = "Carrier" then carrierNew ud.x ud.y ud.owner
    else if ud.unit_type = "NuclearMissile" then missileNew ud.x ud.y ud.owner
    else armyNew ud.x ud.y ud.owner
  { base with symbol := ud.symbol, max_hp := ud.max_hp, hp := ud.hp,
              movement_points := ud.movement_points, fuel := ud.fuel,
              moves_left := ud.moves_left, home_city := ud.home_city }

/-- The load branch of `run_fallback` (the `run_curses` one is identical):
rehydrate map/units/players/turn into the running session `prior`, then
re-init fog-of-war, reset `visible`, and recompute visibility for the loaded
current player. -/
def loadGame (prior : GameState) (data : SaveData) : GameState :=
  let world1 : GameMap :=
    { width := data.map.width, height := data.map.height, tiles := data.map.tiles,
      fog := data.map.fog, cities := data.map.cities,
      explored := data.map.explored, visible := prior.world.visible }
  let units1 := data.units.map deserializeUnit
  let p1a := match data.players.getD 0 { name := prior.p1.name, is_ai := prior.p1.is_ai,
                                         cities := prior.p1.cities } with
    | pd => { name := pd.name, is_ai := pd.is_ai, cities := pd.cities : PlayerRec }
  let p2a := match data.players.getD 1 { name := prior.p2.name, is_ai := prior.p2.is_ai,
                                         cities := prior.p2.cities } with
    | pd => { name := pd.name, is_ai := pd.is_ai, cities := pd.cities : PlayerRec }
  let world2 := world1.init_fow [p1a.name, p2a.name]
  let world3 := { world2 with visible :=
    [(p1a.name, falseGrid world2.width world2.height),
     (p2a.name, falseGrid world2.width world2.height)] }
  let s1 : GameState :=
    { world := world3, units := units1, p1 := p1a, p2 := p2a,
      current_player := data.current_player, turn_number := data.turn_number }
  recompute_visibility s1 s1.current_player

/-! ### map.py : terrain generation

The seeded random noise is abstracted as an explicit `noise` input (a `h × w`
grid of rationals standing for the `rng.random()` values); everything after
the draws is embedded.  Python `sorted` is rendered by the stable
`List.insertionSort`, and the two `while` loops of `carve_path` are rendered
by structural recursion on the exact number of iterations they perform. -/

def landAt (w h : Nat) (g : TileGrid) (x y : Int) : Bool :=
  decide (0 ≤ x) && decide (x < (w : Int)) && decide (0 ≤ y) && decide (y < (h : Int)) &&
  (((g.getD y.toNat []).getD x.toNat '.') == '+')

def neighborOffsets : List (Int × Int) :=
  [(-1, -1), (-1, 0), (-1, 1), (0, -1), (0, 1), (1, -1), (1, 0), (1, 1)]

def noiseAt (noise : List (List ℚ)) (x y : Int) : ℚ :=
  (noise.getD y.toNat []).getD x.toNat 0

/-- `count_landish(y, x)`: in-bounds 8-neighbors with noise value > 0.5. -/
def countLandish (w h : Nat) (noise : List (List ℚ)) (y x : Int) : Nat :=
  (neighborOffsets.filter (fun d =>
    decide (0 ≤ y + d.1) && decide (y + d.1 < (h : Int)) &&
    decide (0 ≤ x + d.2) && decide (x + d.2 < (w : Int)) &&
    decide ((1 : ℚ)/2 < noiseAt noise (x + d.2) (y + d.1)))).length

/-- One cellular-automaton smoothing pass on the noise field. -/
def caPass (w h : Nat) (noise : List (List ℚ)) : List (List ℚ) :=
  (List.range h).map (fun y => (List.range w).map (fun x =>
    let n := countLandish w h noise (y : Int) (x : Int)
    let v := noiseAt noise (x : Int) (y : Int)
    if 5 ≤ n then min 1 (v + 1/5)
    else if n ≤ 3 then max 0 (v - 1/5)
    else v))

/-- Python `int()` (truncation toward zero) on a rational. -/
def pyInt (q : ℚ) : Int :=
  if 0 ≤ q then Rat.floor q else Rat.ceil q

/-- Python list indexing with negative-index wraparound; `none` is an
`IndexError`. -/
def pyIndex (l : List ℚ) (i : Int) : Option ℚ :=
  if 0 ≤ i ∧ i < (l.length : Int) then some (l.getD i.toNat 0)
  else if -(l.length : Int) ≤ i ∧ i < 0 then some (l.getD ((l.length : Int) + i).toNat 0)
  else none

/-- Neighbor land/water counts used by `_smooth_terrain` (any non-land tile
counts as water). -/
def neighborsLW (w h : Nat) (g : TileGrid) (y x : Int) : Nat × Nat :=
  let inb := neighborOffsets.filter (fun d =>
    decide (0 ≤ y + d.1) && decide (y + d.1 < (h : Int)) &&
    decide (0 ≤ x + d.2) && decide (x + d.2 < (w : Int)))
  let land := (inb.filter (fun d =>
    ((g.getD (y + d.1).toNat []).getD (x + d.2).toNat '.') == '+')).length
  (land, inb.length - land)

def setTileChar (g : TileGrid) (y x : Nat) (ch : Char) : TileGrid :=
  g.set y ((g.getD y []).set x ch)

/-- One cell of `_smooth_terrain` (the pass mutates the grid in place while
scanning, so each cell sees the updates of earlier cells). -/
def smoothCell (w h : Nat) (g : TileGrid) (y x : Nat) : TileGrid :=
  let lw := neighborsLW w h g (y : Int) (x : Int)
  if 5 ≤ lw.1 then setTileChar g y x '+'
  else if 5 ≤ lw.2 then setTileChar g y x '.'
  else g

def smoothPass (w h : Nat) (g : TileGrid) : TileGrid :=
  (List.range h).foldl (fun g1 y => (List.range w).foldl (fun g2 x => smoothCell w h g2 y x) g1) g

/-- One neighbor probe of the BFS of `_ensure_connected_land`: coordinates are
`(y, x)` in `visited` and the queue, `(x, y)` in the component, exactly as in
the source. -/
def tryVisit (w h : Nat) (g : TileGrid)
    (st : List (Int × Int) × List (Int × Int) × List (Int × Int)) (ny nx : Int) :
    List (Int × Int) × List (Int × Int) × List (Int × Int) :=
  if 0 ≤ ny ∧ ny < (h : Int) ∧ 0 ≤ nx ∧ nx < (w : Int) ∧
      ¬ (st.1.contains (ny, nx) = true) ∧ landAt w h g nx ny = true then
    ((ny, nx) :: st.1, st.2.1 ++ [(ny, nx)], st.2.2 ++ [(nx, ny)])
  else st

/-- The BFS queue loop.  `fuel` bounds the number of pops; every enqueue marks
a previously unvisited in-bounds cell visited, so `w * h + 1` pops always
suffice and the fuel value used by `bfsFrom` makes this the exact Python loop. -/
def bfsLoop (w h : Nat) (g : TileGrid) :
    Nat → List (Int × Int) → List (Int × Int) → List (Int × Int) →
    List (Int × Int) × List (Int × Int)
  | _, visited, [], comp => (visited, comp)
  | 0, visited, _ :: _, comp => (visited, comp)
  | fuel + 1, visited, (cy, cx) :: rest, comp =>
    let st1 := tryVisit w h g (visited, rest, comp) (cy + 1) cx
    let st2 := tryVisit w h g st1 (cy - 1) cx
    let st3 := tryVisit w h g st2 cy (cx + 1)
    let st4 := tryVisit w h g st3 cy (cx - 1)
    bfsLoop w h g fuel st4.1 st4.2.1 st4.2.2

/-- `bfs(start_y, start_x)` of `_ensure_connected_land`. -/
def bfsFrom (w h : Nat) (g : TileGrid) (visited : List (Int × Int)) (sy sx : Int) :
    List (Int × Int) × List (Int × Int) :=
  bfsLoop w h g (w * h + 1) ((sy, sx) :: visited) [(sy, sx)] [(sx, sy)]

/-- The component scan: every cell in row-major order, starting a BFS at each
unvisited land cell. -/
def scanLoop (w h : Nat) (g : TileGrid) :
    List (Int × Int) → List (Int × Int) → List (List (Int × Int)) →
    List (Int × Int) × List (List (Int × Int))
  | [], visited, comps => (visited, comps)
  | (y, x) :: rest, visited, comps =>
    if ¬ (visited.contains (y, x) = true) ∧ landAt w h g x y = true then
      let r := bfsFrom w h g visited y x
      scanLoop w h g rest r.1 (comps ++ [r.2])
    else scanLoop w h g rest visited comps

def allCellsYX (w h : Nat) : List (Int × Int) :=
  (List.range h).flatMap (fun y => (List.range w).map (fun x => (Int.ofNat y, Int.ofNat x)))

def landComponents (w h : Nat) (g : TileGrid) : List (List (Int × Int)) :=
  (scanLoop w h g (allCellsYX w h) [] []).2

def setLandTile (g : TileGrid) (x y : Int) : TileGrid :=
  g.set y.toNat ((g.getD y.toNat []).set x.toNat '+')

/-- The `while x != x1` leg of `carve_path`, unrolled on the exact iteration
count `(x1 - x).natAbs`. -/
def carveX : Nat → TileGrid → Int → Int → Int → TileGrid
  | 0, g, _, _, _ => g
  | fuel + 1, g, x, y, x1 =>
    carveX fuel (setLandTile g x y) (if x < x1 then x + 1 else x - 1) y x1

/-- The `while y != y1` leg of `carve_path`. -/
def carveY : Nat → TileGrid → Int → Int → Int → TileGrid
  | 0, g, _, _, _ => g
  | fuel + 1, g, x, y, y1 =>
    carveY fuel (setLandTile g x y) x (if y < y1 then y + 1 else y - 1) y1

def carve_path (g : TileGrid) (x0 y0 x1 y1 : Int) : TileGrid :=
  let g1 := carveX (x1 - x0).natAbs g x0 y0 x1
  let g2 := carveY (y1 - y0).natAbs g1 x1 y0 y1
  setLandTile g2 x1 y1

/-- `_ensure_connected_land`: compute land components, keep the largest
(stable descending sort by size) and carve a Manhattan corridor from each
other component's representative to the main representative. -/
def ensureConnectedLand (w h : Nat) (g : TileGrid) : TileGrid :=
  let comps := landComponents w h g
  if comps.length ≤ 1 then g
  else
    let sorted := List.insertionSort (fun a b => b.length ≤ a.length) comps
    match sorted with
    | [] => g
    | mainComp :: restComps =>
      match mainComp with
      | [] => g
      | mainRep :: _ =>
        restComps.foldl (fun acc comp =>
          match comp with
          | [] => acc
          | rep :: _ => carve_path acc rep.1 rep.2 mainRep.1 mainRep.2) g

/-- `GameMap.generate` with the `rng.random()` draws abstracted as `noise`:
4 smoothing passes on the noise, percentile thresholding (`none` is the
`IndexError` raised when the threshold index is out of range), 2 terrain
smoothing passes, then connectivity repair. -/
def generateFromNoise (w h : Nat) (noise : List (List ℚ)) (land_target : ℚ) :
    Option TileGrid :=
  let n4 := ((caPass w h)^[4]) noise
  let flat := n4.flatten
  let flat_sorted := List.insertionSort (fun a b => a ≤ b) flat
  let idx := pyInt ((1 - land_target) * (flat_sorted.length : ℚ))
  match pyIndex flat_sorted idx with
  | none => none
  | some threshold =>
    let tiles0 := (List.range h).map (fun y => (List.range w).map (fun x =>
      if threshold ≤ noiseAt n4 (Int.ofNat x) (Int.ofNat y) then '+' else '.'))
    let tiles1 := smoothPass w h (smoothPass w h tiles0)
    some (ensureConnectedLand w h tiles1)

/-! ### 4-connectivity of the land tiles (for claim C4) -/

/-- One step between 4-adjacent land cells (cells as `(x, y)`). -/
def landStep (w h : Nat) (g : TileGrid) (a b : Int × Int) : Prop :=
  landAt w h g a.1 a.2 = true ∧ landAt w h g b.1 b.2 = true ∧
  ((a.1 = b.1 ∧ (a.2 - b.2).natAbs = 1) ∨ (a.2 = b.2 ∧ (a.1 - b.1).natAbs = 1))

/-- `b` is reachable from `a` through 4-adjacent land cells. -/
def landReach (w h : Nat) (g : TileGrid) : (Int × Int) → (Int × Int) → Prop :=
  Relation.ReflTransGen (landStep w h g)

/-- The claim's property: the land tiles form at most one 4-connected
component (every two land cells are mutually reachable over land). -/
def landConnected (w h : Nat) (g : TileGrid) : Prop :=
  ∀ a b : Int × Int, landAt w h g a.1 a.2 = true → landAt w h g b.1 b.2 = true →
    landReach w h g a b

/-- The `h × w` rectangular shape every grid of the generator has. -/
def gridWF (w h : Nat) (g : TileGrid) : Prop :=
  g.length = h ∧ ∀ row ∈ g, row.length = w

/-- Invariant of the BFS state `(visited, queue, comp)` of
`_ensure_connected_land` relative to the visited set `visited0` at BFS start
and the start cell `start` (as `(x, y)`): `visited` is exactly `visited0` plus
the component found so far, every component cell is land reachable from
`start`, and every queued cell is in the component. -/
def bfsInv (w h : Nat) (g : TileGrid) (visited0 : List (Int × Int))
    (start : Int × Int)
    (st : List (Int × Int) × List (Int × Int) × List (Int × Int)) : Prop :=
  (∀ v : Int × Int, v ∈ st.1 ↔ (v ∈ visited0 ∨ (v.2, v.1) ∈ st.2.2)) ∧
  (∀ c ∈ st.2.2, landAt w h g c.1 c.2 = true ∧ landReach w h g start c) ∧
  (∀ q ∈ st.2.1, (q.2, q.1) ∈ st.2.2)

/-! ### The per-player fog-of-war call interface (for claim C3)

A call sequence against the three FoW methods of `GameMap`, exactly as the
claim quantifies over them. -/

inductive FowOp where
  | init (players : List String)
  | clearVisible (player : String)
  | markCircle (player : String) (x y radius : Int)
  deriving DecidableEq, Repr

def applyFowOp (m : GameMap) : FowOp → GameMap
  | .init ps => m.init_fow ps
  | .clearVisible p => m.clear_visible_for p
  | .markCircle p x y r => m.mark_visible_circle p x y r

def applyFowOps (m : GameMap) (ops : List FowOp) : GameMap :=
  ops.foldl applyFowOp m

/-- Reading cell `[yy][xx]` of a grid; out-of-range reads are `false`
(a cell the Python dict-of-lists simply does not hold). -/
def cellD (g : BoolGrid) (xx yy : Nat) : Bool :=
  (g.getD yy []).getD xx false

/-- `visible[p][yy][xx]` (resp. `explored`), with absent player or
out-of-range cell read as `false`. -/
def fowCell (g : FowGrids) (p : String) (xx yy : Nat) : Bool :=
  cellD ((fowLookup g p).getD []) xx yy

/-- Each player's `visible` and `explored` grids have the same row count and
the same row lengths (true of every state `init_fow` produces, and preserved
by all three calls). -/
def fowAligned (m : GameMap) : Prop :=
  ∀ p : String, ((fowLookup m.visible p).getD []).length =
      ((fowLookup m.explored p).getD []).length ∧
    ∀ i : Nat, (((fowLookup m.visible p).getD []).getD i []).length =
      (((fowLookup m.explored p).getD []).getD i []).length

/-- The claim's invariant: `visible[p][t] = true → explored[p][t] = true`. -/
def fowSubset (m : GameMap) : Prop :=
  ∀ (p : String) (xx yy : Nat),
    fowCell m.visible p xx yy = true → fowCell m.explored p xx yy = true

/-- `true` iff the operation is not an `init_fow` call. -/
def FowOp.nonInit : FowOp → Bool
  | .init _ => false
  | _ => true

/-! ## Theorems

(The Batteries rational arithmetic operations are `@[irreducible]`, which
blocks the evaluation done by `decide`; restore the usual reducibility for
the concrete computations below.) -/

unseal Rat.add Rat.sub Rat.mul Rat.inv Rat.ofScientific

/-! ### C7 : `detonate_missile` -/

def inBlast (x y r2 px py : Int) : Bool :=
  decide ((px - x) * (px - x) + (py - y) * (py - y) ≤ r2)

theorem detonate_units_loop_eq (x y r2 : Int) (l : List Unit) :
    detonate_units_loop x y r2 l =
      (l.map (fun v => if v.is_alive && inBlast x y r2 v.x v.y then { v with hp := 0 } else v),
       l.countP (fun v => v.is_alive && inBlast x y r2 v.x v.y)) := by
  induction l with
  | nil => rfl
  | cons v rest ih =>
    simp only [detonate_units_loop, ih, List.map_cons, List.countP_cons, inBlast]
    by_cases hc : (v.is_alive && decide ((v.x - x) * (v.x - x) + (v.y - y) * (v.y - y) ≤ r2)) = true
    · simp [hc, Nat.add_comm]
    · simp [hc]

theorem city_owner_none_eta (c : City) (h : c.owner = none) :
    ({ c with owner := none } : City) = c := by
  cases c
  simp_all

theorem detonate_cities_loop_eq (x y r2 : Int) (l : List City) :
    detonate_cities_loop x y r2 l =
      (l.map (fun c => if inBlast x y r2 c.x c.y then { c with owner := none } else c),
       l.countP (fun c => inBlast x y r2 c.x c.y && c.owner.isSome)) := by
  induction l with
  | nil => rfl
  | cons c rest ih =>
    simp only [detonate_cities_loop, ih, List.map_cons, List.countP_cons, inBlast]
    by_cases hc : (decide ((c.x - x) * (c.x - x) + (c.y - y) * (c.y - y) ≤ r2)) = true
    · by_cases ho : c.owner.isSome
      · simp [ho, hc, Nat.add_comm]
      · have hnone : c.owner = none := Option.not_isSome_iff_eq_none.mp (by simpa using ho)
        simp [ho, hc, city_owner_none_eta c hnone]
    · simp [hc]

/-- C7: `detonate_missile` centered at (x, y) with radius r sets hp to 0 for
exactly the alive units at squared distance ≤ r² regardless of owner, sets the
owner of every city in the same circle to none while preserving its production
fields (and every other part of the state), and returns the number of units
destroyed and the number of cities whose owner was cleared. -/
theorem detonate_missile_spec (s : GameState) (owner : String) (x y radius : Int) :
    (detonate_missile s owner x y radius).1.units =
      s.units.map (fun v =>
        if v.is_alive && inBlast x y (radius * radius) v.x v.y then { v with hp := 0 } else v) ∧
    (detonate_missile s owner x y radius).1.world.cities =
      s.world.cities.map (fun c =>
        if inBlast x y (radius * radius) c.x c.y then { c with owner := none } else c) ∧
    (detonate_missile s owner x y radius).2.1 =
      s.units.countP (fun v => v.is_alive && inBlast x y (radius * radius) v.x v.y) ∧
    (detonate_missile s owner x y radius).2.2 =
      s.world.cities.countP (fun c => inBlast x y (radius * radius) c.x c.y && c.owner.isSome) ∧
    (detonate_missile s owner x y radius).1.world.tiles = s.world.tiles ∧
    (detonate_missile s owner x y radius).1.world.explored = s.world.explored ∧
    (detonate_missile s owner x y radius).1.world.visible = s.world.visible ∧
    (detonate_missile s owner x y radius).1.current_player = s.current_player ∧
    (detonate_missile s owner x y radius).1.turn_number = s.turn_number := by
  simp [detonate_missile, detonate_units_loop_eq, detonate_cities_loop_eq]

/-! ### C5 : terrain rejections leave the state unchanged -/

/-- C5: an alive Army with moves left attempting to move onto an in-bounds
Ocean tile gets `moved = false` and the state back verbatim, and likewise an
alive Carrier attempting to move onto an in-bounds Land tile. -/
theorem tryMove_terrain_reject (fuel : Nat) (rng : Nat → ℚ) (ri : Nat) (s : GameState)
    (ui : Nat) (dx dy : Int)
    (hui : ui < s.units.length)
    (halive : (s.units[ui]).is_alive = true)
    (hmoves : 0 < (s.units[ui]).moves_left)
    (hin : inBoundsb s.world ((s.units[ui]).x + dx) ((s.units[ui]).y + dy) = true) :
    ((s.units[ui]).type = .army →
      tileAt s.world ((s.units[ui]).x + dx) ((s.units[ui]).y + dy) = '.' →
      try_move_unit fuel rng ri s ui dx dy = some (s, false, false, false, "")) ∧
    ((s.units[ui]).type = .carrier →
      tileAt s.world ((s.units[ui]).x + dx) ((s.units[ui]).y + dy) = '+' →
      try_move_unit fuel rng ri s ui dx dy = some (s, false, false, false, "")) := by
  constructor
  · intro htype htile
    have hland : is_land s.world ((s.units[ui]).x + dx) ((s.units[ui]).y + dy) = false := by
      simp [is_land, htile]
    simp [try_move_unit, Unit.can_move, hui, halive, hmoves, hin, htype, htile, hland]
  · intro htype htile
    simp [try_move_unit, Unit.can_move, hui, halive, hmoves, hin, htype, htile]

/-- Witness for C5 on a concrete 3×3 state: an Army at (0,0) moving onto the
ocean tile (1,0) and a Carrier at (1,0)… (see `c5WitnessState`). -/
def c5WitnessState : GameState :=
  { world := { width := 3, height := 3,
               tiles := [['+', '.', '+'], ['+', '+', '+'], ['+', '+', '+']],
               cities := [], fog := [], explored := [], visible := [] },
    units := [armyNew 0 0 "P1", carrierNew 1 0 "P1"],
    p1 := { name := "P1", is_ai := false, cities := [] },
    p2 := { name := "P2", is_ai := false, cities := [] },
    current_player := "P1", turn_number := 1 }

theorem tryMove_terrain_reject_witness :
    try_move_unit 0 (fun _ => 0) 0 c5WitnessState 0 1 0 =
      some (c5WitnessState, false, false, false, "") ∧
    try_move_unit 0 (fun _ => 0) 0 c5WitnessState 1 0 1 =
      some (c5WitnessState, false, false, false, "") :=
  ⟨(tryMove_terrain_reject 0 (fun _ => 0) 0 c5WitnessState 0 1 0 (by decide) (by decide)
      (by decide) (by decide)).1 (by decide) (by decide),
   (tryMove_terrain_reject 0 (fun _ => 0) 0 c5WitnessState 1 0 1 (by decide) (by decide)
      (by decide) (by decide)).2 (by decide) (by decide)⟩

/-! ### C9 : the combat exchange loop -/

/-- One combat round exactly as the spec words it, on states
`(draw index, attacker hp, defender hp)`: both sides must still be alive; the
attacker draws first and the defender loses 3 hp on a draw below the attacker
hit-chance; if that leaves the defender at hp ≤ 0 the round ends the fight at
once (no return swing), otherwise the defender draws back and the attacker
loses 2 hp on a draw below the defender hit-chance. -/
def combatRound (rng : Nat → ℚ) (ah dh : ℚ) :
    Nat × Int × Int → Nat × Int × Int → Prop :=
  fun st st2 =>
    0 < st.2.1 ∧ 0 < st.2.2 ∧
    ((if rng st.1 < ah then st.2.2 - 3 else st.2.2) ≤ 0 ∧
        st2 = (st.1 + 1, st.2.1, if rng st.1 < ah then st.2.2 - 3 else st.2.2) ∨
      0 < (if rng st.1 < ah then st.2.2 - 3 else st.2.2) ∧
        st2 = (st.1 + 2, if rng (st.1 + 1) < dh then st.2.1 - 2 else st.2.1,
               if rng st.1 < ah then st.2.2 - 3 else st.2.2))

theorem clampChance_eq (p : ℚ) (h1 : 1/5 ≤ p) (h2 : p ≤ 4/5) : clampChance p = p := by
  unfold clampChance
  rw [min_eq_right h2, max_eq_right h1]

theorem combatLoop_rounds (rng : Nat → ℚ) (ah dh : ℚ) :
    ∀ (fuel i : Nat) (a d : Int) (res : Bool × Bool × Int × Int × Nat),
      combatLoop rng ah dh fuel i a d = some res →
      Relation.ReflTransGen (combatRound rng ah dh) (i, a, d)
        (res.2.2.2.2, res.2.2.1, res.2.2.2.1) ∧
      ¬ (0 < res.2.2.1 ∧ 0 < res.2.2.2.1) ∧
      res.1 = decide (0 < res.2.2.1) ∧ res.2.1 = decide (0 < res.2.2.2.1) := by
  intro fuel
  induction fuel with
  | zero =>
    intro i a d res h
    obtain ⟨aAlive, dAlive, aHp, dHp, iOut⟩ := res
    simp only [combatLoop] at h
    by_cases hb : 0 < a ∧ 0 < d
    · rw [if_pos hb] at h
      exact absurd h (by simp)
    · rw [if_neg hb] at h
      cases h
      exact ⟨Relation.ReflTransGen.refl, hb, rfl, rfl⟩
  | succ fuel ih =>
    intro i a d res h
    obtain ⟨aAlive, dAlive, aHp, dHp, iOut⟩ := res
    simp only [combatLoop] at h
    by_cases hb : 0 < a ∧ 0 < d
    · rw [if_pos hb] at h
      by_cases hd1 : (if rng i < ah then d - 3 else d) ≤ 0
      · rw [if_pos hd1] at h
        cases h
        refine ⟨Relation.ReflTransGen.single ⟨hb.1, hb.2, Or.inl ⟨hd1, rfl⟩⟩, ?_, rfl, rfl⟩
        exact fun hcon => absurd hcon.2 (not_lt.mpr hd1)
      · rw [if_neg hd1] at h
        have step := ih (i + 2) (if rng (i + 1) < dh then a - 2 else a)
          (if rng i < ah then d - 3 else d) (aAlive, dAlive, aHp, dHp, iOut) h
        have hd2 : 0 < (if rng i < ah then d - 3 else d) := by omega
        refine ⟨Relation.ReflTransGen.head ⟨hb.1, hb.2, Or.inr ⟨hd2, rfl⟩⟩ step.1, step.2⟩
    · rw [if_neg hb] at h
      cases h
      exact ⟨Relation.ReflTransGen.refl, hb, rfl, rfl⟩

/-- C9: whenever `resolve_attack` returns (with in-range hit chances, which
covers every call site), its run is a chain of spec-side combat rounds — the
attacker swings first each round and the defender only swings back while still
alive — the loop stops exactly when one side's hp is ≤ 0, and the returned
pair is `(attacker.hp > 0, defender.hp > 0)` at exit. -/
theorem resolve_attack_rounds (fuel : Nat) (rng : Nat → ℚ) (i : Nat) (a d : Int)
    (ah dh : ℚ) (res : Bool × Bool × Int × Int × Nat)
    (hah1 : 1/5 ≤ ah) (hah2 : ah ≤ 4/5) (hdh1 : 1/5 ≤ dh) (hdh2 : dh ≤ 4/5)
    (h : resolve_attack fuel rng i a d ah dh = some res) :
    Relation.ReflTransGen (combatRound rng ah dh) (i, a, d)
      (res.2.2.2.2, res.2.2.1, res.2.2.2.1) ∧
    ¬ (0 < res.2.2.1 ∧ 0 < res.2.2.2.1) ∧
    res.1 = decide (0 < res.2.2.1) ∧ res.2.1 = decide (0 < res.2.2.2.1) := by
  have h2 : combatLoop rng ah dh fuel i a d = some res := by
    simpa [resolve_attack, clampChance_eq ah hah1 hah2, clampChance_eq dh hdh1 hdh2] using h
  exact combatLoop_rounds rng ah dh fuel i a d res h2

theorem resolve_attack_rounds_witness :
    (1 : ℚ)/5 ≤ 11/20 ∧ (11 : ℚ)/20 ≤ 4/5 ∧ (1 : ℚ)/5 ≤ 1/2 ∧ (1 : ℚ)/2 ≤ 4/5 ∧
    (Relation.ReflTransGen (combatRound (fun _ => 0) (11/20) (1/2)) (0, 10, 10) (7, 4, -2) ∧
      ¬ ((0 : Int) < 4 ∧ (0 : Int) < -2) ∧
      true = decide ((0 : Int) < 4) ∧ false = decide ((0 : Int) < -2)) :=
  ⟨by norm_num, by norm_num, by norm_num, by norm_num, by
    have h := resolve_attack_rounds 10 (fun _ => 0) 0 10 10 (11/20) (1/2)
      (true, false, 4, -2, 7) (by norm_num) (by norm_num) (by norm_num) (by norm_num)
      (by decide)
    exact h⟩

/-! ### C6 : missile direction lock -/

theorem getD_set_self_of_lt (l : List Unit) (i : Nat) (u : Unit) (h : i < l.length) :
    (l.set i u).getD i dummyUnit = u := by
  simp [List.getD_eq_getElem?_getD, List.getElem?_set_self, h]

theorem ite_hp_zero_direction (v : Unit) (b : Bool) :
    ((if b then { v with hp := 0 } else v).direction_dx = v.direction_dx ∧
     (if b then { v with hp := 0 } else v).direction_dy = v.direction_dy) := by
  cases b <;> exact ⟨rfl, rfl⟩

theorem detonate_units_length (s : GameState) (o : String) (x y r : Int) :
    (detonate_missile s o x y r).1.units.length = s.units.length := by
  rw [(detonate_missile_spec s o x y r).1, List.length_map]

theorem detonate_direction (s : GameState) (o : String) (x y r : Int) (i : Nat) :
    ((detonate_missile s o x y r).1.units.getD i dummyUnit).direction_dx =
      (s.units.getD i dummyUnit).direction_dx ∧
    ((detonate_missile s o x y r).1.units.getD i dummyUnit).direction_dy =
      (s.units.getD i dummyUnit).direction_dy := by
  rw [(detonate_missile_spec s o x y r).1]
  by_cases hi : i < s.units.length
  · rw [List.getD_eq_getElem?_getD, List.getElem?_map, List.getElem?_eq_getElem hi,
      List.getD_eq_getElem?_getD, List.getElem?_eq_getElem hi]
    exact ite_hp_zero_direction _ _
  · rw [List.getD_eq_getElem?_getD, List.getElem?_map,
      List.getElem?_eq_none (by omega), List.getD_eq_getElem?_getD,
      List.getElem?_eq_none (by omega)]
    exact ⟨rfl, rfl⟩

theorem missile_finish_direction (s : GameState) (ui : Nat) (res : MoveResult)
    (hui : ui < s.units.length) (h : missile_finish s ui = some res) :
    (res.1.units.getD ui dummyUnit).direction_dx =
      (s.units.getD ui dummyUnit).direction_dx ∧
    (res.1.units.getD ui dummyUnit).direction_dy =
      (s.units.getD ui dummyUnit).direction_dy := by
  unfold missile_finish at h
  by_cases hc : 40 ≤ (s.units.getD ui dummyUnit).traveled ∨
      (s.units.getD ui dummyUnit).moves_left ≤ 0
  · rw [if_pos hc] at h
    cases h
    have hlen : ui < (detonate_missile s (s.units.getD ui dummyUnit).owner
        (s.units.getD ui dummyUnit).x (s.units.getD ui dummyUnit).y 10).1.units.length := by
      rw [detonate_units_length]
      exact hui
    have hdir := detonate_direction s (s.units.getD ui dummyUnit).owner
      (s.units.getD ui dummyUnit).x (s.units.getD ui dummyUnit).y 10 ui
    simp only [setUnit, getD_set_self_of_lt _ _ _ hlen]
    exact hdir
  · rw [if_neg hc] at h
    cases h
    exact ⟨rfl, rfl⟩

theorem setUnit_length (s : GameState) (i : Nat) (u : Unit) :
    (setUnit s i u).units.length = s.units.length := by
  simp [setUnit]

theorem missile_finish_direction_set (s : GameState) (ui : Nat) (v : Unit)
    (res : MoveResult) (hui : ui < s.units.length)
    (h : missile_finish (setUnit s ui v) ui = some res)
    (hdx : v.direction_dx = (s.units.getD ui dummyUnit).direction_dx)
    (hdy : v.direction_dy = (s.units.getD ui dummyUnit).direction_dy) :
    (res.1.units.getD ui dummyUnit).direction_dx =
      (s.units.getD ui dummyUnit).direction_dx ∧
    (res.1.units.getD ui dummyUnit).direction_dy =
      (s.units.getD ui dummyUnit).direction_dy := by
  have hlen : ui < (setUnit s ui v).units.length := by
    rw [setUnit_length]
    exact hui
  have hfin := missile_finish_direction _ ui res hlen h
  rw [show (setUnit s ui v).units = s.units.set ui v from rfl,
    getD_set_self_of_lt _ _ _ hui, hdx, hdy] at hfin
  exact hfin

theorem missile_advance_direction (s : GameState) (ui : Nat) (dx dy nx ny : Int)
    (res : MoveResult) (hui : ui < s.units.length)
    (h : missile_advance s ui dx dy nx ny = some res) :
    (res.1.units.getD ui dummyUnit).direction_dx =
      (s.units.getD ui dummyUnit).direction_dx ∧
    (res.1.units.getD ui dummyUnit).direction_dy =
      (s.units.getD ui dummyUnit).direction_dy := by
  cases hfind : unit_at s.units nx ny with
  | some b =>
    simp only [missile_advance, hfind] at h
    by_cases h2 : (s.units.getD ui dummyUnit).moves_left < 2
    · rw [if_pos h2] at h
      cases h
      exact ⟨rfl, rfl⟩
    · rw [if_neg h2] at h
      by_cases h3 : ¬ (inBoundsb s.world (nx + dx) (ny + dy) = true)
      · rw [if_pos h3] at h
        cases h
        exact ⟨rfl, rfl⟩
      · rw [if_neg h3] at h
        by_cases h4 : (unit_at s.units (nx + dx) (ny + dy)).isSome = true
        · rw [if_pos h4] at h
          cases h
          exact ⟨rfl, rfl⟩
        · rw [if_neg h4] at h
          exact missile_finish_direction_set s ui _ res hui h rfl rfl
  | none =>
    simp only [missile_advance, hfind] at h
    exact missile_finish_direction_set s ui _ res hui h rfl rfl

theorem tryMove_missile_reduce (fuel : Nat) (rng : Nat → ℚ) (ri : Nat) (s : GameState)
    (ui : Nat) (dx dy : Int)
    (hui : ui < s.units.length) (hm : (s.units[ui]).type = .nuclearMissile)
    (hcan : (s.units[ui]).can_move = true)
    (hin : inBoundsb s.world ((s.units[ui]).x + dx) ((s.units[ui]).y + dy) = true) :
    try_move_unit fuel rng ri s ui dx dy =
      (match (s.units[ui]).direction_dx, (s.units[ui]).direction_dy with
       | none, none =>
         if dx = 0 ∧ dy = 0 then some (s, false, false, false, "")
         else
           missile_advance
             (setUnit s ui
               { s.units[ui] with direction_dx := some dx, direction_dy := some dy })
             ui dx dy ((s.units[ui]).x + dx) ((s.units[ui]).y + dy)
       | _, _ =>
         if some dx ≠ (s.units[ui]).direction_dx ∨ some dy ≠ (s.units[ui]).direction_dy then
           some (s, false, false, false, "Missile locked to direction")
         else missile_advance s ui dx dy ((s.units[ui]).x + dx) ((s.units[ui]).y + dy)) := by
  simp [try_move_unit, hui, hcan, hin, hm]

theorem tryMove_guard_fail (fuel : Nat) (rng : Nat → ℚ) (ri : Nat) (s : GameState)
    (ui : Nat) (dx dy : Int)
    (hui : ui < s.units.length)
    (hfail : ¬ ((s.units[ui]).can_move = true) ∨
      ¬ (inBoundsb s.world ((s.units[ui]).x + dx) ((s.units[ui]).y + dy) = true)) :
    try_move_unit fuel rng ri s ui dx dy = some (s, false, false, false, "") := by
  by_cases hcan : (s.units[ui]).can_move = true
  · have hin : ¬ (inBoundsb s.world ((s.units[ui]).x + dx) ((s.units[ui]).y + dy) = true) := by
      rcases hfail with h | h
      · exact absurd hcan h
      · exact h
    simp [try_move_unit, hui, hcan, hin]
  · simp [try_move_unit, hui, hcan]

/-- C6 (amended): for a `NuclearMissile` whose direction lock is set, any move
request whose `(dx, dy)` differs from the lock returns `moved = false` and
leaves the entire state unchanged, with the explanatory message
`"Missile locked to direction"` whenever the earlier generic guards pass (the
missile can move and the destination is in bounds) and with an empty message
when one of those guards rejects first; no call ever changes an existing lock,
and a first move that reports `moved = true` on an unlocked missile leaves the
lock set to exactly the requested `(dx, dy)`. -/
theorem missile_direction_lock (fuel : Nat) (rng : Nat → ℚ) (ri : Nat) (s : GameState)
    (ui : Nat) (dx dy : Int)
    (hui : ui < s.units.length)
    (hm : (s.units[ui]).type = .nuclearMissile) :
    (∀ ddx ddy, (s.units[ui]).direction_dx = some ddx →
      (s.units[ui]).direction_dy = some ddy →
      ((∀ res, try_move_unit fuel rng ri s ui dx dy = some res →
          (res.1.units.getD ui dummyUnit).direction_dx = some ddx ∧
          (res.1.units.getD ui dummyUnit).direction_dy = some ddy) ∧
       (¬ (dx = ddx ∧ dy = ddy) →
          (try_move_unit fuel rng ri s ui dx dy = some (s, false, false, false, "") ∨
           try_move_unit fuel rng ri s ui dx dy =
             some (s, false, false, false, "Missile locked to direction"))) ∧
       (¬ (dx = ddx ∧ dy = ddy) → (s.units[ui]).can_move = true →
          inBoundsb s.world ((s.units[ui]).x + dx) ((s.units[ui]).y + dy) = true →
          try_move_unit fuel rng ri s ui dx dy =
            some (s, false, false, false, "Missile locked to direction")))) ∧
    ((s.units[ui]).direction_dx = none → (s.units[ui]).direction_dy = none →
      ∀ res, try_move_unit fuel rng ri s ui dx dy = some res → res.2.1 = true →
        (res.1.units.getD ui dummyUnit).direction_dx = some dx ∧
        (res.1.units.getD ui dummyUnit).direction_dy = some dy) := by
  have hgetD : s.units.getD ui dummyUnit = s.units[ui] := List.getD_eq_getElem _ _ hui
  constructor
  · intro ddx ddy hdx hdy
    by_cases hcan : (s.units[ui]).can_move = true
    · by_cases hin : inBoundsb s.world ((s.units[ui]).x + dx) ((s.units[ui]).y + dy) = true
      · have hred := tryMove_missile_reduce fuel rng ri s ui dx dy hui hm hcan hin
        rw [hdx, hdy] at hred
        by_cases hdiff : dx = ddx ∧ dy = ddy
        · -- matching direction : the move goes to `missile_advance`
          have hred2 : try_move_unit fuel rng ri s ui dx dy =
              missile_advance s ui dx dy ((s.units[ui]).x + dx) ((s.units[ui]).y + dy) := by
            rw [hred]
            simp [hdiff.1, hdiff.2]
          refine ⟨?_, ?_, ?_⟩
          · intro res hres
            rw [hred2] at hres
            have hpres := missile_advance_direction s ui dx dy _ _ res hui hres
            rw [hgetD, hdx, hdy] at hpres
            exact hpres
          · intro hcon
            exact absurd hdiff hcon
          · intro hcon
            exact absurd hdiff hcon
        · -- mismatching direction : rejected with the explanatory message
          have hcond : some dx ≠ some ddx ∨ some dy ≠ some ddy := by
            simp only [ne_eq, Option.some.injEq]
            tauto
          have hred2 : try_move_unit fuel rng ri s ui dx dy =
              some (s, false, false, false, "Missile locked to direction") := by
            rw [hred]
            simp only [if_pos hcond]
          refine ⟨?_, fun _ => Or.inr hred2, fun _ _ _ => hred2⟩
          intro res hres
          rw [hred2] at hres
          cases hres
          rw [hgetD]
          exact ⟨hdx, hdy⟩
      · have hred := tryMove_guard_fail fuel rng ri s ui dx dy hui (Or.inr hin)
        refine ⟨?_, fun _ => Or.inl hred, fun _ _ hin2 => absurd hin2 hin⟩
        intro res hres
        rw [hred] at hres
        cases hres
        rw [hgetD]
        exact ⟨hdx, hdy⟩
    · have hred := tryMove_guard_fail fuel rng ri s ui dx dy hui (Or.inl hcan)
      refine ⟨?_, fun _ => Or.inl hred, fun _ hcan2 _ => absurd hcan2 hcan⟩
      intro res hres
      rw [hred] at hres
      cases hres
      rw [hgetD]
      exact ⟨hdx, hdy⟩
  · intro hdx hdy res hres hmoved
    by_cases hcan : (s.units[ui]).can_move = true
    · by_cases hin : inBoundsb s.world ((s.units[ui]).x + dx) ((s.units[ui]).y + dy) = true
      · have hred := tryMove_missile_reduce fuel rng ri s ui dx dy hui hm hcan hin
        rw [hdx, hdy] at hred
        by_cases hzero : dx = 0 ∧ dy = 0
        · rw [hred, if_pos hzero] at hres
          cases hres
          simp at hmoved
        · rw [hred, if_neg hzero] at hres
          have hlen2 : ui < (setUnit s ui { s.units[ui] with direction_dx := some dx, direction_dy := some dy }).units.length := by
            rw [setUnit_length]
            exact hui
          have hpres := missile_advance_direction _ ui dx dy _ _ res hlen2 hres
          rw [show (setUnit s ui { s.units[ui] with direction_dx := some dx, direction_dy := some dy }).units = s.units.set ui { s.units[ui] with direction_dx := some dx, direction_dy := some dy } from rfl, getD_set_self_of_lt _ _ _ hui] at hpres
          exact hpres
      · have hred := tryMove_guard_fail fuel rng ri s ui dx dy hui (Or.inr hin)
        rw [hred] at hres
        cases hres
        simp at hmoved
    · have hred := tryMove_guard_fail fuel rng ri s ui dx dy hui (Or.inl hcan)
      rw [hred] at hres
      cases hres
      simp at hmoved

/-- A locked missile (direction (1,0)) standing at (1,2) on a 3×3 map; the
mismatching request (0,1) has its destination out of bounds. -/
def c6CounterState : GameState :=
  { world := { width := 3, height := 3,
               tiles := [['+', '+', '+'], ['+', '+', '+'], ['+', '+', '+']],
               cities := [], fog := [], explored := [], visible := [] },
    units := [{ missileNew 1 2 "P1" with direction_dx := some 1, direction_dy := some 0, moves_left := 5 }],
    p1 := { name := "P1", is_ai := false, cities := [] },
    p2 := { name := "P2", is_ai := false, cities := [] },
    current_player := "P1", turn_number := 1 }

/-- C6 counterexample: a move request that differs from the locked direction
but fails the bounds guard first is rejected with an *empty* message, not an
explanatory one — the claim's "every subsequent move request whose (dx, dy)
differs from the locked direction returns moved=false with an explanatory
message" is false at this input (the rejection and the absence of state change
do hold). -/
theorem missile_locked_empty_message :
    (c6CounterState.units.getD 0 dummyUnit).direction_dx = some 1 ∧
    (c6CounterState.units.getD 0 dummyUnit).direction_dy = some 0 ∧
    (c6CounterState.units.getD 0 dummyUnit).is_alive = true ∧
    0 < (c6CounterState.units.getD 0 dummyUnit).moves_left ∧
    ¬ ((0 : Int) = 1 ∧ (1 : Int) = 0) ∧
    try_move_unit 0 (fun _ => 0) 0 c6CounterState 0 0 1 =
      some (c6CounterState, false, false, false, "") := by
  refine ⟨rfl, rfl, rfl, by decide, by decide, ?_⟩
  decide

/-- Same situation but with the mismatching destination in bounds. -/
def c6WitnessState : GameState :=
  { world := { width := 3, height := 3,
               tiles := [['+', '+', '+'], ['+', '+', '+'], ['+', '+', '+']],
               cities := [], fog := [], explored := [], visible := [] },
    units := [{ missileNew 1 1 "P1" with direction_dx := some 1, direction_dy := some 0, moves_left := 5 }],
    p1 := { name := "P1", is_ai := false, cities := [] },
    p2 := { name := "P2", is_ai := false, cities := [] },
    current_player := "P1", turn_number := 1 }

theorem missile_direction_lock_witness :
    try_move_unit 0 (fun _ => 0) 0 c6WitnessState 0 0 1 =
      some (c6WitnessState, false, false, false, "Missile locked to direction") :=
  ((missile_direction_lock 0 (fun _ => 0) 0 c6WitnessState 0 0 1 (by decide) (by decide)).1
    1 0 (by decide) (by decide)).2.2 (by decide) (by decide) (by decide)

/-! ### C2 : savegame round trip -/

/-- A reachable-shaped state containing a launched missile: direction lock
(1, 0) and 5 tiles traveled. -/
def c2FailingState : GameState :=
  { world := { width := 3, height := 3,
               tiles := [['+', '+', '+'], ['+', '+', '+'], ['+', '+', '+']],
               cities := [{ x := 2, y := 2, owner := some "P1", production_type := some "Army",
                            production_progress := 3, production_cost := 12, support_cap := 2 }],
               fog := [[false, false, false], [false, false, false], [false, false, false]],
               explored := [], visible := [] },
    units := [{ missileNew 1 1 "P1" with direction_dx := some 1, direction_dy := some 0, traveled := 5, moves_left := 33 }],
    p1 := { name := "P1", is_ai := false, cities := [(2, 2)] },
    p2 := { name := "P2", is_ai := false, cities := [] },
    current_player := "P1", turn_number := 4 }

/-- C2 evaluation at the failing input: `serialize_units` writes the missile's
`direction_dx`/`direction_dy`/`traveled`, but the load path reconstructs the
missile from its constructor and never restores them, so the round trip resets
the lock to `none` and the traveled distance to 0 — the unit list does not
round-trip — while the tile grid, the city list (all fields, in order), the
turn number and the active player do come back identical. -/
theorem savegame_roundtrip_drops_missile_lock :
    (c2FailingState.units.getD 0 dummyUnit).direction_dx = some 1 ∧
    (c2FailingState.units.getD 0 dummyUnit).direction_dy = some 0 ∧
    (c2FailingState.units.getD 0 dummyUnit).traveled = 5 ∧
    (serializeGame c2FailingState).units.map (fun ud => (ud.direction_dx, ud.direction_dy, ud.traveled)) =
      [(some 1, some 0, 5)] ∧
    ((loadGame c2FailingState (serializeGame c2FailingState)).units.getD 0 dummyUnit).direction_dx = none ∧
    ((loadGame c2FailingState (serializeGame c2FailingState)).units.getD 0 dummyUnit).direction_dy = none ∧
    ((loadGame c2FailingState (serializeGame c2FailingState)).units.getD 0 dummyUnit).traveled = 0 ∧
    (loadGame c2FailingState (serializeGame c2FailingState)).units ≠ c2FailingState.units ∧
    (loadGame c2FailingState (serializeGame c2FailingState)).world.tiles = c2FailingState.world.tiles ∧
    (loadGame c2FailingState (serializeGame c2FailingState)).world.cities = c2FailingState.world.cities ∧
    (loadGame c2FailingState (serializeGame c2FailingState)).turn_number = c2FailingState.turn_number ∧
    (loadGame c2FailingState (serializeGame c2FailingState)).current_player = c2FailingState.current_player := by
  decide

/-! ### C8 / C10 : production advance -/

/-- End-of-turn healing only adjusts hp; every field that the spawn logic and
the support-cap count observe — position, type, owner, home city — and
aliveness itself are untouched. -/
def preservesShape (f : Unit → Unit) : Prop :=
  ∀ u, (f u).x = u.x ∧ (f u).y = u.y ∧ (f u).type = u.type ∧ (f u).owner = u.owner ∧
       (f u).home_city = u.home_city ∧ (f u).is_alive = u.is_alive

theorem heal_unit_preservesShape (cities : List City) :
    preservesShape (heal_unit cities) := by
  intro u
  unfold heal_unit
  split
  · exact ⟨rfl, rfl, rfl, rfl, rfl, rfl⟩
  · rename_i ha
    split
    · rename_i c heq
      split
      · rename_i hcond
        refine ⟨rfl, rfl, rfl, rfl, rfl, ?_⟩
        have halive : 0 < u.hp := by
          have h2 : u.is_alive = true := by
            by_cases h : u.is_alive = true
            · exact h
            · exact absurd h ha
          simpa [Unit.is_alive] using h2
        have hmin : 0 < min u.max_hp (u.hp + 1) := lt_min (by omega) (by omega)
        simp [Unit.is_alive, hmin, halive]
      · exact ⟨rfl, rfl, rfl, rfl, rfl, rfl⟩
    · exact ⟨rfl, rfl, rfl, rfl, rfl, rfl⟩

theorem preservesShape_id : preservesShape id :=
  fun _ => ⟨rfl, rfl, rfl, rfl, rfl, rfl⟩

theorem preservesShape_comp (f g : Unit → Unit) (hf : preservesShape f)
    (hg : preservesShape g) : preservesShape (f ∘ g) := by
  intro u
  obtain ⟨h1, h2, h3, h4, h5, h6⟩ := hf (g u)
  obtain ⟨g1, g2, g3, g4, g5, g6⟩ := hg u
  exact ⟨h1.trans g1, h2.trans g2, h3.trans g3, h4.trans g4, h5.trans g5, h6.trans g6⟩

theorem preservesShape_iterate (f : Unit → Unit) (hf : preservesShape f) (k : Nat) :
    preservesShape (f^[k]) := by
  induction k with
  | zero => exact preservesShape_id
  | succ k ih =>
    intro u
    rw [Function.iterate_succ_apply]
    obtain ⟨h1, h2, h3, h4, h5, h6⟩ := ih (f u)
    obtain ⟨g1, g2, g3, g4, g5, g6⟩ := hf u
    exact ⟨h1.trans g1, h2.trans g2, h3.trans g3, h4.trans g4, h5.trans g5, h6.trans g6⟩

theorem is_supported_congr (f : Unit → Unit) (hf : preservesShape f) (u : Unit) (c : City) :
    (is_supported_by_city (f u) c && (f u).is_alive) =
      (is_supported_by_city u c && u.is_alive) := by
  obtain ⟨_, _, h3, h4, h5, h6⟩ := hf u
  simp only [is_supported_by_city, h3, h4, h5, h6]

theorem supportedCount_map (f : Unit → Unit) (hf : preservesShape f)
    (units : List Unit) (c : City) :
    supportedCount (units.map f) c = supportedCount units c := by
  unfold supportedCount
  rw [List.filter_map, List.length_map]
  congr 1
  refine List.filter_congr ?_
  intro u _
  exact is_supported_congr f hf u c

theorem unit_at_map_isNone (f : Unit → Unit) (hf : preservesShape f)
    (units : List Unit) (x y : Int) :
    (unit_at (units.map f) x y).isNone = (unit_at units x y).isNone := by
  unfold unit_at
  rw [List.find?_map]
  have hfun : ((fun u => u.is_alive && u.x == x && u.y == y) ∘ f) =
      (fun u => u.is_alive && u.x == x && u.y == y) := by
    funext u
    obtain ⟨h1, h2, _, _, _, h6⟩ := hf u
    simp only [Function.comp_apply, h1, h2, h6]
  rw [hfun]
  cases List.find? (fun u => u.is_alive && u.x == x && u.y == y) units <;> rfl

theorem is_tile_free_map (f : Unit → Unit) (hf : preservesShape f)
    (units : List Unit) (x y : Int) :
    is_tile_free (units.map f) x y = is_tile_free units x y := by
  unfold is_tile_free
  exact unit_at_map_isNone f hf units x y

theorem spawn_find_map (f : Unit → Unit) (hf : preservesShape f)
    (m : GameMap) (units : List Unit) (c : City) :
    (spawn_positions c).find?
        (fun p => inBoundsb m p.1 p.2 && is_land m p.1 p.2 && is_tile_free (units.map f) p.1 p.2) =
      (spawn_positions c).find?
        (fun p => inBoundsb m p.1 p.2 && is_land m p.1 p.2 && is_tile_free units p.1 p.2) := by
  have hfun : (fun (p : Int × Int) => inBoundsb m p.1 p.2 && is_land m p.1 p.2 &&
      is_tile_free (units.map f) p.1 p.2) =
      (fun p => inBoundsb m p.1 p.2 && is_land m p.1 p.2 && is_tile_free units p.1 p.2) := by
    funext p
    rw [is_tile_free_map f hf units p.1 p.2]
  rw [hfun]

theorem advance_one_tick (m : GameMap) (c : City) (units : List Unit) (p : String)
    (howner : c.owner = some p) (hneutral : p ≠ "neutral")
    (htype : c.production_type = some "Army") (hcost : 0 < c.production_cost)
    (h12 : ¬ (12 ≤ c.production_progress + 1)) :
    advance_one m c units = ({ c with production_progress := c.production_progress + 1 }, units) := by
  have hc0 : ¬ (c.production_cost ≤ 0) := by omega
  simp [advance_one, howner, hneutral, htype, hc0, PRODUCTION_CATALOG, h12]

theorem advance_one_spawn_fail (m : GameMap) (c : City) (units : List Unit) (p : String)
    (howner : c.owner = some p) (hneutral : p ≠ "neutral")
    (htype : c.production_type = some "Army") (hcost : 0 < c.production_cost)
    (h12 : 12 ≤ c.production_progress + 1)
    (hcap : (c.support_cap : Int) ≤ (supportedCount units c : Int)) :
    advance_one m c units = ({ c with production_progress := c.production_cost }, units) := by
  have hc0 : ¬ (c.production_cost ≤ 0) := by omega
  simp [advance_one, howner, hneutral, htype, hc0, PRODUCTION_CATALOG, h12,
    run_spawn, spawn_army, hcap]

theorem advance_one_spawn_ok (m : GameMap) (c : City) (units : List Unit) (p : String)
    (pos : Int × Int)
    (howner : c.owner = some p) (hneutral : p ≠ "neutral")
    (htype : c.production_type = some "Army") (hcost : 0 < c.production_cost)
    (h12 : 12 ≤ c.production_progress + 1)
    (hcap : ¬ ((c.support_cap : Int) ≤ (supportedCount units c : Int)))
    (hfind : (spawn_positions c).find?
      (fun q => inBoundsb m q.1 q.2 && is_land m q.1 q.2 && is_tile_free units q.1 q.2) = some pos) :
    advance_one m c units = ({ c with production_progress := 0 },
      units ++ [{ (armyNew pos.1 pos.2 (ownerStr c.owner)).reset_moves with
                    home_city := some (c.x, c.y) }]) := by
  have hc0 : ¬ (c.production_cost ≤ 0) := by omega
  simp [advance_one, howner, hneutral, htype, hc0, PRODUCTION_CATALOG, h12,
    run_spawn, spawn_army, hcap, hfind]

theorem advance_state_single (s : GameState) (c : City) (hc : s.world.cities = [c]) :
    advance_production_and_spawn s =
      { s with world := { s.world with cities := [(advance_one s.world c s.units).1] },
               units := ((advance_one s.world c s.units).2).map
                 (heal_unit [(advance_one s.world c s.units).1]) } := by
  unfold advance_production_and_spawn
  rw [hc]
  simp [advance_cities]

theorem heal_unit_city_progress (c : City) (q : Int) :
    heal_unit [{ c with production_progress := q }] = heal_unit [c] := by
  funext u
  unfold heal_unit city_at
  by_cases hxy : (c.x == u.x && c.y == u.y) = true
  · rw [List.find?_cons_of_pos _ (by exact hxy), List.find?_cons_of_pos _ (by exact hxy)]
  · rw [List.find?_cons_of_neg _ (by exact hxy), List.find?_cons_of_neg _ (by exact hxy)]

theorem heal_unit_no_heal (cities : List City) (u : Unit) (h : ¬ (u.hp < u.max_hp)) :
    heal_unit cities u = u := by
  unfold heal_unit
  split
  · rfl
  · split
    · rw [if_neg (by tauto)]
    · rfl

theorem advance_iter_tick (s : GameState) (c : City) (p : String)
    (hc : s.world.cities = [c])
    (howner : c.owner = some p) (hneutral : p ≠ "neutral")
    (htype : c.production_type = some "Army") (hcost : 0 < c.production_cost)
    (hprog : c.production_progress = 0) :
    ∀ k, k ≤ 11 →
      (advance_production_and_spawn^[k]) s =
        { s with world := { s.world with cities := [{ c with production_progress := (k : Int) }] },
                 units := s.units.map ((heal_unit [c])^[k]) } := by
  intro k
  induction k with
  | zero =>
    intro _
    have h1 : ({ c with production_progress := ((0 : Nat) : Int) } : City) = c := by
      have : ((0 : Nat) : Int) = c.production_progress := by omega
      rw [this]
    rw [h1, ← hc]
    simp
  | succ k ih =>
    intro hk
    have hk11 : k ≤ 11 := by omega
    rw [Function.iterate_succ_apply', ih hk11]
    rw [advance_state_single _ { c with production_progress := (k : Int) } rfl]
    rw [advance_one_tick _ ({ c with production_progress := (k : Int) }) _ p (by exact howner)
      hneutral (by exact htype) (by exact hcost) (by
      show ¬ ((12 : Int) ≤ (k : Int) + 1)
      omega)]
    have hcast : (((k + 1 : Nat)) : Int) = (k : Int) + 1 := by push_cast; ring
    rw [heal_unit_city_progress c ((k : Int) + 1)]
    simp only [List.map_map, hcast]
    rw [show (heal_unit [c])^[k + 1] = (heal_unit [c]) ∘ (heal_unit [c])^[k] from
      Function.iterate_succ' (heal_unit [c]) k]

theorem supportedCount_iter (s : GameState) (c : City) (k : Nat) :
    supportedCount (s.units.map ((heal_unit [c])^[k])) c = supportedCount s.units c :=
  supportedCount_map _ (preservesShape_iterate _ (heal_unit_preservesShape [c]) k) s.units c

theorem advance_iter_fail12 (s : GameState) (c : City) (p : String)
    (hc : s.world.cities = [c])
    (howner : c.owner = some p) (hneutral : p ≠ "neutral")
    (htype : c.production_type = some "Army") (hcost : 0 < c.production_cost)
    (hprog : c.production_progress = 0)
    (hcap : (c.support_cap : Int) ≤ (supportedCount s.units c : Int)) :
    (advance_production_and_spawn^[12]) s =
      { s with world := { s.world with cities := [{ c with production_progress := c.production_cost }] },
               units := s.units.map ((heal_unit [c])^[12]) } := by
  have h11 := advance_iter_tick s c p hc howner hneutral htype hcost hprog 11 (by omega)
  rw [show (12 : Nat) = 11 + 1 from rfl, Function.iterate_succ_apply', h11]
  rw [advance_state_single _ { c with production_progress := ((11 : Nat) : Int) } rfl]
  rw [advance_one_spawn_fail _ ({ c with production_progress := ((11 : Nat) : Int) }) _ p
      (by exact howner) hneutral (by exact htype) (by exact hcost) (by
      show (12 : Int) ≤ ((11 : Nat) : Int) + 1
      omega) (by
      show (c.support_cap : Int) ≤
        (supportedCount (s.units.map ((heal_unit [c])^[11])) { c with production_progress := ((11 : Nat) : Int) } : Int)
      rw [show supportedCount (s.units.map ((heal_unit [c])^[11])) { c with production_progress := ((11 : Nat) : Int) } =
        supportedCount (s.units.map ((heal_unit [c])^[11])) c from rfl]
      rw [supportedCount_iter]
      exact hcap)]
  rw [heal_unit_city_progress c c.production_cost]
  simp only [List.map_map]
  rw [show (heal_unit [c])^[11 + 1] = (heal_unit [c]) ∘ (heal_unit [c])^[11] from
    Function.iterate_succ' (heal_unit [c]) 11]

theorem advance_iter_capped12 (s : GameState) (c : City) (p : String)
    (hc : s.world.cities = [c])
    (howner : c.owner = some p) (hneutral : p ≠ "neutral")
    (htype : c.production_type = some "Army") (hcost12 : c.production_cost = 12)
    (hprog : c.production_progress = 0)
    (hcap : (c.support_cap : Int) ≤ (supportedCount s.units c : Int)) :
    ∀ j, (advance_production_and_spawn^[12 + j]) s =
      { s with world := { s.world with cities := [{ c with production_progress := 12 }] },
               units := s.units.map ((heal_unit [c])^[12 + j]) } := by
  intro j
  induction j with
  | zero =>
    have h := advance_iter_fail12 s c p hc howner hneutral htype (by omega) hprog hcap
    rw [show (12 + 0 : Nat) = 12 from rfl, h, hcost12]
  | succ j ih =>
    rw [show (12 + (j + 1) : Nat) = (12 + j) + 1 from rfl, Function.iterate_succ_apply', ih]
    rw [advance_state_single _ { c with production_progress := (12 : Int) } rfl]
    rw [advance_one_spawn_fail _ ({ c with production_progress := (12 : Int) }) _ p
      (by exact howner) hneutral (by exact htype) (by simp [hcost12]) (by
      show (12 : Int) ≤ (12 : Int) + 1
      omega) (by
      show (c.support_cap : Int) ≤
        (supportedCount (s.units.map ((heal_unit [c])^[12 + j])) { c with production_progress := (12 : Int) } : Int)
      rw [show supportedCount (s.units.map ((heal_unit [c])^[12 + j])) { c with production_progress := (12 : Int) } =
        supportedCount (s.units.map ((heal_unit [c])^[12 + j])) c from rfl]
      rw [supportedCount_iter]
      exact hcap)]
    rw [heal_unit_city_progress c c.production_cost]
    simp only [List.map_map, hcost12]
    rw [show (heal_unit [c])^[(12 + j) + 1] = (heal_unit [c]) ∘ (heal_unit [c])^[12 + j] from
      Function.iterate_succ' (heal_unit [c]) (12 + j)]

theorem advance_iter_spawn12 (s : GameState) (c : City) (p : String) (pos : Int × Int)
    (hc : s.world.cities = [c])
    (howner : c.owner = some p) (hneutral : p ≠ "neutral")
    (htype : c.production_type = some "Army") (hcost : 0 < c.production_cost)
    (hprog : c.production_progress = 0)
    (hcap : ¬ ((c.support_cap : Int) ≤ (supportedCount s.units c : Int)))
    (hfind : (spawn_positions c).find?
      (fun q => inBoundsb s.world q.1 q.2 && is_land s.world q.1 q.2 &&
                is_tile_free s.units q.1 q.2) = some pos) :
    (advance_production_and_spawn^[12]) s =
      { s with world := { s.world with cities := [{ c with production_progress := 0 }] },
               units := s.units.map ((heal_unit [c])^[12]) ++
                 [{ (armyNew pos.1 pos.2 (ownerStr c.owner)).reset_moves with
                      home_city := some (c.x, c.y) }] } := by
  have h11 := advance_iter_tick s c p hc howner hneutral htype hcost hprog 11 (by omega)
  rw [show (12 : Nat) = 11 + 1 from rfl, Function.iterate_succ_apply', h11]
  rw [advance_state_single _ { c with production_progress := ((11 : Nat) : Int) } rfl]
  rw [advance_one_spawn_ok _ ({ c with production_progress := ((11 : Nat) : Int) }) _ p pos
      (by exact howner) hneutral (by exact htype) (by exact hcost) (by
      show (12 : Int) ≤ ((11 : Nat) : Int) + 1
      omega) (by
      show ¬ ((c.support_cap : Int) ≤
        (supportedCount (s.units.map ((heal_unit [c])^[11])) { c with production_progress := ((11 : Nat) : Int) } : Int))
      rw [show supportedCount (s.units.map ((heal_unit [c])^[11])) { c with production_progress := ((11 : Nat) : Int) } =
        supportedCount (s.units.map ((heal_unit [c])^[11])) c from rfl]
      rw [supportedCount_iter]
      exact hcap) (by
      show (spawn_positions c).find?
        (fun q => inBoundsb s.world q.1 q.2 && is_land s.world q.1 q.2 &&
                  is_tile_free (s.units.map ((heal_unit [c])^[11])) q.1 q.2) = some pos
      rw [spawn_find_map _ (preservesShape_iterate _ (heal_unit_preservesShape [c]) 11) s.world s.units c]
      exact hfind)]
  rw [heal_unit_city_progress c 0]
  rw [List.map_append, List.map_map]
  rw [show (heal_unit [c])^[12] = (heal_unit [c]) ∘ (heal_unit [c])^[11] from
    Function.iterate_succ' (heal_unit [c]) 11]
  rw [show List.map (heal_unit [c])
      [{ (armyNew pos.1 pos.2 (ownerStr c.owner)).reset_moves with home_city := some (c.x, c.y) }] =
      [{ (armyNew pos.1 pos.2 (ownerStr c.owner)).reset_moves with home_city := some (c.x, c.y) }] from by
    rw [List.map_singleton, heal_unit_no_heal _ _ (by
      show ¬ ((10 : Int) < 10)
      omega)]]

/-- C8: for a lone city producing Army at stored cost 12 (the catalog cost)
with progress 0: the first 11 advances only tick the progress and spawn
nothing; the 12th advance, when the support is below the cap and the
9-candidate search finds a free land tile, appends exactly one Army homed at
the city and resets the progress to 0; while if the support cap is already
met, every advance from the 12th on keeps the progress pinned at 12 and never
spawns. -/
theorem city_production_army_cycle (s : GameState) (c : City) (p : String)
    (hc : s.world.cities = [c])
    (howner : c.owner = some p) (hneutral : p ≠ "neutral")
    (htype : c.production_type = some "Army") (hcost : c.production_cost = 12)
    (hprog : c.production_progress = 0) :
    (∀ k, k ≤ 11 →
      ((advance_production_and_spawn^[k]) s).units.length = s.units.length ∧
      ((advance_production_and_spawn^[k]) s).world.cities =
        [{ c with production_progress := (k : Int) }]) ∧
    (∀ pos, ¬ ((c.support_cap : Int) ≤ (supportedCount s.units c : Int)) →
      (spawn_positions c).find?
        (fun q => inBoundsb s.world q.1 q.2 && is_land s.world q.1 q.2 &&
                  is_tile_free s.units q.1 q.2) = some pos →
      ((advance_production_and_spawn^[12]) s).world.cities =
        [{ c with production_progress := 0 }] ∧
      ((advance_production_and_spawn^[12]) s).units =
        s.units.map ((heal_unit [c])^[12]) ++
          [{ (armyNew pos.1 pos.2 p).reset_moves with home_city := some (c.x, c.y) }] ∧
      ((advance_production_and_spawn^[12]) s).units.length = s.units.length + 1) ∧
    ((c.support_cap : Int) ≤ (supportedCount s.units c : Int) →
      ∀ j, ((advance_production_and_spawn^[12 + j]) s).world.cities =
          [{ c with production_progress := 12 }] ∧
        ((advance_production_and_spawn^[12 + j]) s).units.length = s.units.length) := by
  have hcost0 : 0 < c.production_cost := by omega
  refine ⟨?_, ?_, ?_⟩
  · intro k hk
    rw [advance_iter_tick s c p hc howner hneutral htype hcost0 hprog k hk]
    exact ⟨List.length_map _ _, rfl⟩
  · intro pos hcap hfind
    have h := advance_iter_spawn12 s c p pos hc howner hneutral htype hcost0 hprog hcap hfind
    rw [h]
    refine ⟨rfl, ?_, ?_⟩
    · rw [show ownerStr c.owner = p from by rw [howner]; rfl]
    · simp
  · intro hcap j
    rw [advance_iter_capped12 s c p hc howner hneutral htype hcost hprog hcap j]
    exact ⟨rfl, List.length_map _ _⟩

def c8WitnessState : GameState :=
  { world := { width := 3, height := 3,
               tiles := [['+', '+', '+'], ['+', '+', '+'], ['+', '+', '+']],
               cities := [{ x := 2, y := 2, owner := some "P1", production_type := some "Army",
                            production_progress := 0, production_cost := 12, support_cap := 2 }],
               fog := [], explored := [], visible := [] },
    units := [armyNew 0 0 "P1"],
    p1 := { name := "P1", is_ai := false, cities := [] },
    p2 := { name := "P2", is_ai := false, cities := [] },
    current_player := "P1", turn_number := 1 }

def c8WitnessCity : City :=
  { x := 2, y := 2, owner := some "P1", production_type := some "Army",
    production_progress := 0, production_cost := 12, support_cap := 2 }

theorem city_production_army_cycle_witness :
    ((advance_production_and_spawn^[11]) c8WitnessState).units.length = 1 ∧
    ((advance_production_and_spawn^[12]) c8WitnessState).world.cities =
      [{ c8WitnessCity with production_progress := 0 }] ∧
    ((advance_production_and_spawn^[12]) c8WitnessState).units.length = 2 := by
  have h := city_production_army_cycle c8WitnessState c8WitnessCity "P1" rfl rfl
    (by decide) rfl rfl rfl
  refine ⟨(h.1 11 (by omega)).1, ?_, ?_⟩
  · exact (h.2.1 (2, 2) (by decide) (by decide)).1
  · exact (h.2.1 (2, 2) (by decide) (by decide)).2.2

/-- C10: the spawn threshold in `advance_production_and_spawn` is the catalog
cost of the production type (12 for Army), not the stored `production_cost`;
`try_capture_city` configures a captured city with type Army and stored cost 8,
and such a city ticks 1..11 without spawning (although its progress exceeds
the stored cost 8 from the 8th advance on), attempts the spawn only on the
12th advance, and on a failed spawn the progress is clamped to the stored
cost 8, not to the catalog cost 12 (on a successful spawn it resets to 0). -/
theorem captured_city_catalog_threshold (s : GameState) (c : City) (p : String)
    (hc : s.world.cities = [c])
    (howner : c.owner = some p) (hneutral : p ≠ "neutral")
    (htype : c.production_type = some "Army") (hcost8 : c.production_cost = 8)
    (hprog : c.production_progress = 0) :
    (∀ (m : GameMap) (u : Unit) (ci : Nat), u.type ≠ .fighter →
      cityIdxAt m.cities u.x u.y = some ci →
      optOwnerEq (m.cities.getD ci dummyCity).owner u.owner = false →
      try_capture_city m u =
        ({ m with cities := m.cities.set ci { m.cities.getD ci dummyCity with owner := some u.owner, production_type := some "Army", production_cost := 8, production_progress := 0 } }, true)) ∧
    (∀ k, k ≤ 11 →
      ((advance_production_and_spawn^[k]) s).units.length = s.units.length ∧
      ((advance_production_and_spawn^[k]) s).world.cities =
        [{ c with production_progress := (k : Int) }]) ∧
    ((c.support_cap : Int) ≤ (supportedCount s.units c : Int) →
      ((advance_production_and_spawn^[12]) s).world.cities =
        [{ c with production_progress := 8 }] ∧
      ((advance_production_and_spawn^[12]) s).units.length = s.units.length) ∧
    (∀ pos, ¬ ((c.support_cap : Int) ≤ (supportedCount s.units c : Int)) →
      (spawn_positions c).find?
        (fun q => inBoundsb s.world q.1 q.2 && is_land s.world q.1 q.2 &&
                  is_tile_free s.units q.1 q.2) = some pos →
      ((advance_production_and_spawn^[12]) s).world.cities =
        [{ c with production_progress := 0 }] ∧
      ((advance_production_and_spawn^[12]) s).units.length = s.units.length + 1) := by
  have hcost0 : 0 < c.production_cost := by omega
  refine ⟨?_, ?_, ?_, ?_⟩
  · intro m u ci hft hci hne
    rw [List.getD_eq_getElem?_getD] at hne
    simp [try_capture_city, hci, hft, hne, List.getD_eq_getElem?_getD]
  · intro k hk
    rw [advance_iter_tick s c p hc howner hneutral htype hcost0 hprog k hk]
    exact ⟨List.length_map _ _, rfl⟩
  · intro hcap
    have h := advance_iter_fail12 s c p hc howner hneutral htype hcost0 hprog hcap
    rw [h, hcost8]
    exact ⟨rfl, List.length_map _ _⟩
  · intro pos hcap hfind
    have h := advance_iter_spawn12 s c p pos hc howner hneutral htype hcost0 hprog hcap hfind
    rw [h]
    exact ⟨rfl, by simp⟩

def c10WitnessState : GameState :=
  { world := { width := 3, height := 3,
               tiles := [['+', '+', '+'], ['+', '+', '+'], ['+', '+', '+']],
               cities := [{ x := 2, y := 2, owner := some "P1", production_type := some "Army",
                            production_progress := 0, production_cost := 8, support_cap := 2 }],
               fog := [], explored := [], visible := [] },
    units := [{ armyNew 0 0 "P1" with home_city := some (2, 2) },
              { armyNew 0 1 "P1" with home_city := some (2, 2) }],
    p1 := { name := "P1", is_ai := false, cities := [] },
    p2 := { name := "P2", is_ai := false, cities := [] },
    current_player := "P1", turn_number := 1 }

def c10WitnessCity : City :=
  { x := 2, y := 2, owner := some "P1", production_type := some "Army",
    production_progress := 0, production_cost := 8, support_cap := 2 }

theorem captured_city_catalog_threshold_witness :
    ((advance_production_and_spawn^[9]) c10WitnessState).world.cities =
      [{ c10WitnessCity with production_progress := 9 }] ∧
    ((advance_production_and_spawn^[12]) c10WitnessState).world.cities =
      [{ c10WitnessCity with production_progress := 8 }] ∧
    ((advance_production_and_spawn^[12]) c10WitnessState).units.length = 2 := by
  have h := captured_city_catalog_threshold c10WitnessState c10WitnessCity "P1" rfl rfl
    (by decide) rfl rfl rfl
  refine ⟨?_, (h.2.2.1 (by decide)).1, (h.2.2.1 (by decide)).2⟩
  have h9 := (h.2.1 9 (by omega)).2
  rw [h9]
  rfl

/-! ### C1 : end-of-turn missile handling -/

theorem set_getD (l : List Unit) (i j : Nat) (v : Unit) :
    (l.set i v).getD j dummyUnit =
      if i = j ∧ i < l.length then v else l.getD j dummyUnit := by
  by_cases hij : i = j
  · subst hij
    by_cases hi : i < l.length
    · rw [getD_set_self_of_lt _ _ _ hi, if_pos ⟨rfl, hi⟩]
    · rw [if_neg (by tauto), List.set_eq_of_length_le (by omega)]
  · rw [if_neg (by tauto), List.getD_eq_getElem?_getD, List.getElem?_set_ne hij,
      ← List.getD_eq_getElem?_getD]

theorem getD_of_length_le (l : List Unit) (j : Nat) (h : l.length ≤ j) :
    l.getD j dummyUnit = dummyUnit := by
  rw [List.getD_eq_getElem?_getD, List.getElem?_eq_none h]
  rfl

theorem detonate_getD (s : GameState) (o : String) (x y r : Int) (i : Nat)
    (hi : i < s.units.length) :
    (detonate_missile s o x y r).1.units.getD i dummyUnit =
      (if (s.units.getD i dummyUnit).is_alive &&
          inBlast x y (r * r) (s.units.getD i dummyUnit).x (s.units.getD i dummyUnit).y then
        { s.units.getD i dummyUnit with hp := 0 }
      else s.units.getD i dummyUnit) := by
  rw [(detonate_missile_spec s o x y r).1]
  rw [List.getD_eq_getElem?_getD, List.getElem?_map, List.getElem?_eq_getElem hi,
    List.getD_eq_getElem?_getD, List.getElem?_eq_getElem hi]
  rfl

theorem detonate_getD_out (s : GameState) (o : String) (x y r : Int) (i : Nat)
    (hi : s.units.length ≤ i) :
    (detonate_missile s o x y r).1.units.getD i dummyUnit = dummyUnit := by
  rw [(detonate_missile_spec s o x y r).1]
  rw [List.getD_eq_getElem?_getD, List.getElem?_map, List.getElem?_eq_none (by omega)]
  rfl

theorem sweep_step_length (s : GameState) (i : Nat) :
    (missile_sweep_step s i).units.length = s.units.length := by
  unfold missile_sweep_step
  dsimp only []
  split
  · rw [setUnit_length, detonate_units_length]
  · rfl

/-- One `missile_sweep_step` leaves every slot alone or zeroes its hp. -/
theorem sweep_step_getD (s : GameState) (i j : Nat) :
    (missile_sweep_step s i).units.getD j dummyUnit = s.units.getD j dummyUnit ∨
    (missile_sweep_step s i).units.getD j dummyUnit =
      { s.units.getD j dummyUnit with hp := 0 } := by
  unfold missile_sweep_step
  dsimp only []
  split
  · rw [show ∀ t : GameState, ∀ v : Unit, (setUnit t i v).units = t.units.set i v from fun _ _ => rfl]
    rw [set_getD]
    split
    · rename_i hij
      obtain ⟨rfl, hilen⟩ := hij
      have hjlen : i < s.units.length := by
        rw [detonate_units_length] at hilen
        exact hilen
      rw [detonate_getD _ _ _ _ _ _ hjlen]
      split
      · right
        rfl
      · right
        rfl
    · by_cases hjlen : j < s.units.length
      · rw [detonate_getD _ _ _ _ _ _ hjlen]
        split
        · right
          rfl
        · left
          rfl
      · rw [detonate_getD_out _ _ _ _ _ _ (by omega), getD_of_length_le _ _ (by omega)]
        left
        rfl
  · left
    rfl

theorem foldl_sweep_zero_stable (L : List Nat) (s : GameState) (j : Nat)
    (h0 : ((s.units.getD j dummyUnit).hp = 0)) :
    (((L.foldl missile_sweep_step s).units.getD j dummyUnit).hp = 0) := by
  induction L generalizing s with
  | nil => exact h0
  | cons i L2 ih =>
    rw [List.foldl_cons]
    apply ih
    rcases sweep_step_getD s i j with h | h
    · rw [h]
      exact h0
    · rw [h]

theorem foldl_sweep_shape (L : List Nat) (s : GameState) (j : Nat) :
    ((L.foldl missile_sweep_step s).units.getD j dummyUnit).type =
      (s.units.getD j dummyUnit).type ∧
    (((L.foldl missile_sweep_step s).units.getD j dummyUnit).hp =
        (s.units.getD j dummyUnit).hp ∨
      ((L.foldl missile_sweep_step s).units.getD j dummyUnit).hp = 0) := by
  induction L generalizing s with
  | nil => exact ⟨rfl, Or.inl rfl⟩
  | cons i L2 ih =>
    rw [List.foldl_cons]
    obtain ⟨ht, hh⟩ := ih (missile_sweep_step s i)
    rcases sweep_step_getD s i j with h | h
    · rw [h] at ht hh
      exact ⟨ht, hh⟩
    · rw [h] at ht hh
      refine ⟨ht, ?_⟩
      rcases hh with h2 | h2
      · right
        exact h2
      · right
        exact h2

theorem foldl_sweep_kills (L : List Nat) (s : GameState) (j : Nat)
    (hm : (s.units.getD j dummyUnit).type = .nuclearMissile)
    (hb : 0 < (s.units.getD j dummyUnit).hp ∨ (s.units.getD j dummyUnit).hp = 0)
    (hj : j ∈ L) :
    (((L.foldl missile_sweep_step s).units.getD j dummyUnit).hp = 0) := by
  induction L generalizing s with
  | nil => cases hj
  | cons i L2 ih =>
    rw [List.foldl_cons]
    rcases List.mem_cons.mp hj with rfl | hj2
    · -- this step visits slot j
      apply foldl_sweep_zero_stable
      unfold missile_sweep_step
      dsimp only []
      split
      · rename_i hcond
        have hjlen : j < s.units.length := by
          by_contra hge
          rw [getD_of_length_le _ _ (by omega)] at hcond
          simp [dummyUnit, armyNew] at hcond
        rw [show ∀ t : GameState, ∀ v : Unit, (setUnit t j v).units = t.units.set j v from fun _ _ => rfl]
        rw [set_getD, if_pos ⟨rfl, by rw [detonate_units_length]; exact hjlen⟩]
      · rename_i hcond
        -- the slot is a dead missile : its hp is already exactly 0
        rcases hb with hpos | h0
        · exfalso
          apply hcond
          simp only [hm, Unit.is_alive, Bool.and_eq_true, decide_eq_true_eq]
          exact ⟨trivial, hpos⟩
        · exact h0
    · -- slot j is visited later
      obtain ⟨ht, hh⟩ : ((missile_sweep_step s i).units.getD j dummyUnit).type =
          (s.units.getD j dummyUnit).type ∧
          (((missile_sweep_step s i).units.getD j dummyUnit).hp =
              (s.units.getD j dummyUnit).hp ∨
            ((missile_sweep_step s i).units.getD j dummyUnit).hp = 0) := by
        rcases sweep_step_getD s i j with h | h
        · rw [h]
          exact ⟨rfl, Or.inl rfl⟩
        · rw [h]
          exact ⟨rfl, Or.inr rfl⟩
      refine ih (missile_sweep_step s i) ?_ ?_ hj2
      · rw [ht, hm]
      · rcases hh with h2 | h2
        · rw [h2]
          exact hb
        · rw [h2]
          right
          rfl

theorem missile_sweep_kills (s : GameState) (j : Nat)
    (hj : j < s.units.length)
    (hm : (s.units.getD j dummyUnit).type = .nuclearMissile)
    (hb : 0 < (s.units.getD j dummyUnit).hp ∨ (s.units.getD j dummyUnit).hp = 0) :
    (((missile_sweep s).units.getD j dummyUnit).hp = 0) :=
  foldl_sweep_kills (List.range s.units.length) s j hm hb (List.mem_range.mpr hj)

theorem spawn_army_append (m : GameMap) (units : List Unit) (c : City) :
    ∃ ext, (spawn_army m units c).1 = units ++ ext := by
  unfold spawn_army
  split
  · exact ⟨[], by simp⟩
  · split
    · exact ⟨_, rfl⟩
    · exact ⟨[], by simp⟩

theorem spawn_fighter_append (m : GameMap) (units : List Unit) (c : City) :
    ∃ ext, (spawn_fighter m units c).1 = units ++ ext := by
  unfold spawn_fighter
  split
  · exact ⟨_, rfl⟩
  · exact ⟨[], by simp⟩

theorem spawn_carrier_append (m : GameMap) (units : List Unit) (c : City) :
    ∃ ext, (spawn_carrier m units c).1 = units ++ ext := by
  unfold spawn_carrier
  split
  · exact ⟨_, rfl⟩
  · exact ⟨[], by simp⟩

theorem spawn_missile_append (m : GameMap) (units : List Unit) (c : City) :
    ∃ ext, (spawn_missile m units c).1 = units ++ ext := by
  unfold spawn_missile
  split
  · exact ⟨_, rfl⟩
  · exact ⟨[], by simp⟩

theorem run_spawn_append (k : SpawnKind) (m : GameMap) (units : List Unit) (c : City) :
    ∃ ext, (run_spawn k m units c).1 = units ++ ext := by
  cases k with
  | army => exact spawn_army_append m units c
  | fighter => exact spawn_fighter_append m units c
  | carrier => exact spawn_carrier_append m units c
  | missile => exact spawn_missile_append m units c

theorem advance_one_append (m : GameMap) (c : City) (units : List Unit) :
    ∃ ext, (advance_one m c units).2 = units ++ ext := by
  unfold advance_one
  split
  · exact ⟨[], by simp⟩
  · split
    · exact ⟨[], by simp⟩
    · split
      · exact ⟨[], by simp⟩
      · split
        · exact ⟨[], by simp⟩
        · split
          · exact ⟨[], by simp⟩
          · rename_i entry hcat
            dsimp only []
            split
            · obtain ⟨ext, he⟩ := run_spawn_append entry.2 m units c
              split
              · exact ⟨ext, he⟩
              · exact ⟨ext, he⟩
            · exact ⟨[], by simp⟩

theorem advance_cities_append (m : GameMap) :
    ∀ (cs : List City) (units : List Unit),
      ∃ ext, (advance_cities m cs units).2 = units ++ ext := by
  intro cs
  induction cs with
  | nil =>
    intro units
    exact ⟨[], by simp [advance_cities]⟩
  | cons c rest ih =>
    intro units
    obtain ⟨e1, h1⟩ := advance_one_append m c units
    obtain ⟨e2, h2⟩ := ih (advance_one m c units).2
    refine ⟨e1 ++ e2, ?_⟩
    show (advance_cities m rest (advance_one m c units).2).2 = units ++ (e1 ++ e2)
    rw [h2, h1, List.append_assoc]

theorem advance_getD (s : GameState) (j : Nat) (hj : j < s.units.length) :
    (advance_production_and_spawn s).units.getD j dummyUnit =
      heal_unit (advance_production_and_spawn s).world.cities (s.units.getD j dummyUnit) ∧
    s.units.length ≤ (advance_production_and_spawn s).units.length := by
  obtain ⟨ext, he⟩ := advance_cities_append s.world s.world.cities s.units
  have hcs : (advance_production_and_spawn s).world.cities =
      (advance_cities s.world s.world.cities s.units).1 := rfl
  have hus : (advance_production_and_spawn s).units =
      ((advance_cities s.world s.world.cities s.units).2).map
        (heal_unit (advance_cities s.world s.world.cities s.units).1) := rfl
  constructor
  · rw [hus, hcs, he]
    have hj2 : j < (s.units ++ ext).length := by
      rw [List.length_append]
      omega
    rw [List.getD_eq_getElem?_getD, List.getElem?_map, List.getElem?_eq_getElem hj2]
    have : (s.units ++ ext)[j] = s.units[j] := List.getElem_append_left hj
    rw [this]
    rw [List.getD_eq_getElem?_getD, List.getElem?_eq_getElem hj]
    rfl
  · rw [hus, he, List.length_map, List.length_append]
    omega

theorem enforce_step_getD (m : GameMap) (o : String) (units : List Unit) (i j : Nat) :
    (enforce_step m o units i).getD j dummyUnit = units.getD j dummyUnit ∨
    ((units.getD j dummyUnit).type = .fighter ∧
      (enforce_step m o units i).getD j dummyUnit =
        { units.getD j dummyUnit with hp := 0 }) := by
  unfold enforce_step
  dsimp only []
  split
  · left
    rfl
  · split
    · split
      · left
        rfl
      · split
        · left
          rfl
        · rename_i hcond _ _
          rw [set_getD]
          split
          · rename_i hij
            obtain ⟨rfl, _⟩ := hij
            right
            refine ⟨?_, rfl⟩
            have := (Bool.and_eq_true _ _).mp hcond
            simpa using this.1
          · left
            rfl
    · left
      rfl

theorem enforce_step_length (m : GameMap) (o : String) (units : List Unit) (i : Nat) :
    (enforce_step m o units i).length = units.length := by
  unfold enforce_step
  dsimp only []
  split
  · rfl
  · split
    · split
      · rfl
      · split
        · rfl
        · exact List.length_set _ _ _
    · rfl

theorem foldl_enforce_zero_stable (L : List Nat) (m : GameMap) (o : String)
    (units : List Unit) (j : Nat) (h0 : (units.getD j dummyUnit).hp = 0) :
    (((L.foldl (enforce_step m o) units).getD j dummyUnit).hp = 0) := by
  induction L generalizing units with
  | nil => exact h0
  | cons i L2 ih =>
    rw [List.foldl_cons]
    apply ih
    rcases enforce_step_getD m o units i j with h | h
    · rw [h]
      exact h0
    · rw [h.2]

theorem foldl_enforce_preserve (L : List Nat) (m : GameMap) (o : String)
    (units : List Unit) (j : Nat)
    (hm : (units.getD j dummyUnit).type ≠ .fighter) :
    ((L.foldl (enforce_step m o) units).getD j dummyUnit) = units.getD j dummyUnit := by
  induction L generalizing units with
  | nil => rfl
  | cons i L2 ih =>
    rw [List.foldl_cons]
    rcases enforce_step_getD m o units i j with h | h
    · rw [ih (enforce_step m o units i) (by rw [h]; exact hm), h]
    · exact absurd h.1 hm

theorem reset_moves_getD_hp (units : List Unit) (o : String) (j : Nat) :
    ((reset_moves_for_owner units o).getD j dummyUnit).hp = (units.getD j dummyUnit).hp ∧
    ((reset_moves_for_owner units o).getD j dummyUnit).type = (units.getD j dummyUnit).type := by
  unfold reset_moves_for_owner
  by_cases hj : j < units.length
  · rw [List.getD_eq_getElem?_getD, List.getElem?_map, List.getElem?_eq_getElem hj,
      List.getD_eq_getElem?_getD, List.getElem?_eq_getElem hj]
    constructor
    · show (if ((units[j].owner == o) && units[j].is_alive) = true then units[j].reset_moves else units[j]).hp = units[j].hp
      split
      · rfl
      · rfl
    · show (if ((units[j].owner == o) && units[j].is_alive) = true then units[j].reset_moves else units[j]).type = units[j].type
      split
      · rfl
      · rfl
  · rw [List.getD_eq_getElem?_getD, List.getElem?_map, List.getElem?_eq_none (by omega),
      List.getD_eq_getElem?_getD, List.getElem?_eq_none (by omega)]
    exact ⟨rfl, rfl⟩

/-- C1 (amended): after the text-mode (`run_fallback`) end-turn, every nuclear
missile that was alive at its start — of either player, not only the player
ending the turn — is dead with hp exactly 0; the curses-mode (`run_curses`)
end-turn contains no missile sweep and leaves such a missile alive. -/
theorem end_turn_missile_rule (s : GameState) (j : Nat)
    (hj : j < s.units.length)
    (hm : (s.units.getD j dummyUnit).type = .nuclearMissile)
    (halive : 0 < (s.units.getD j dummyUnit).hp) :
    (((end_turn_fallback s).1).units.getD j dummyUnit).hp = 0 ∧
    0 < (((end_turn_curses s).1).units.getD j dummyUnit).hp := by
  have hshape := heal_unit_preservesShape
    ((advance_production_and_spawn s).world.cities) (s.units.getD j dummyUnit)
  obtain ⟨hadv, hlen⟩ := advance_getD s j hj
  have halive0 : (s.units.getD j dummyUnit).is_alive = true := by
    simp only [Unit.is_alive, decide_eq_true_eq]
    exact halive
  -- facts about the state after production + healing
  have hm1 : ((advance_production_and_spawn s).units.getD j dummyUnit).type =
      .nuclearMissile := by
    rw [hadv, (hshape).2.2.1, hm]
  have halive1 : ((advance_production_and_spawn s).units.getD j dummyUnit).is_alive = true := by
    rw [hadv, (hshape).2.2.2.2.2, halive0]
  have hp1 : 0 < ((advance_production_and_spawn s).units.getD j dummyUnit).hp := by
    have h := halive1
    simp only [Unit.is_alive, decide_eq_true_eq] at h
    exact h
  have hj1 : j < (advance_production_and_spawn s).units.length := by omega
  constructor
  · -- fallback : sweep kills the missile, and nothing revives it
    have hsweep : (((missile_sweep (advance_production_and_spawn s)).units.getD j dummyUnit).hp = 0) :=
      missile_sweep_kills (advance_production_and_spawn s) j hj1 hm1 (Or.inl hp1)
    unfold end_turn_fallback
    dsimp only []
    split
    · exact foldl_enforce_zero_stable _ _ _ _ _ hsweep
    · show ((reset_moves_for_owner (enforce_fighter_basing _ _ _) _).getD j dummyUnit).hp = 0
      rw [(reset_moves_getD_hp _ _ _).1]
      exact foldl_enforce_zero_stable _ _ _ _ _ hsweep
  · -- curses : no sweep, the missile is not a fighter, so basing keeps it
    have hpres : ((enforce_fighter_basing (advance_production_and_spawn s).world
        (advance_production_and_spawn s).units
        (advance_production_and_spawn s).current_player).getD j dummyUnit) =
        (advance_production_and_spawn s).units.getD j dummyUnit :=
      foldl_enforce_preserve _ _ _ _ _ (by rw [hm1]; intro h; cases h)
    unfold end_turn_curses
    dsimp only []
    split
    · show 0 < ((enforce_fighter_basing (advance_production_and_spawn s).world
        (advance_production_and_spawn s).units
        (advance_production_and_spawn s).current_player).getD j dummyUnit).hp
      rw [hpres]
      exact hp1
    · show 0 < ((reset_moves_for_owner (enforce_fighter_basing
        (advance_production_and_spawn s).world (advance_production_and_spawn s).units
        (advance_production_and_spawn s).current_player) _).getD j dummyUnit).hp
      rw [(reset_moves_getD_hp _ _ _).1, hpres]
      exact hp1

/-- A 1×1 world where the inactive player P2 owns the only (alive) missile. -/
def c1CounterState : GameState :=
  { world := { width := 1, height := 1, tiles := [['+']],
               cities := [], fog := [], explored := [], visible := [] },
    units := [missileNew 0 0 "P2"],
    p1 := { name := "P1", is_ai := false, cities := [] },
    p2 := { name := "P2", is_ai := false, cities := [] },
    current_player := "P1", turn_number := 1 }

/-- C1 counterexample: with P1 ending the turn, the fallback end-turn also
detonates the missile owned by the *other* player P2 — so "endTurn detonates
only missiles of the player ending their turn" is false at this input. -/
theorem end_turn_fallback_kills_opponent_missile :
    c1CounterState.current_player = "P1" ∧
    (c1CounterState.units.getD 0 dummyUnit).owner = "P2" ∧
    (c1CounterState.units.getD 0 dummyUnit).type = .nuclearMissile ∧
    0 < (c1CounterState.units.getD 0 dummyUnit).hp ∧
    ((end_turn_fallback c1CounterState).1.units.getD 0 dummyUnit).hp = 0 := by
  refine ⟨rfl, rfl, rfl, by decide, by decide⟩

def c1WitnessState : GameState :=
  { world := { width := 1, height := 1, tiles := [['+']],
               cities := [], fog := [], explored := [], visible := [] },
    units := [missileNew 0 0 "P1"],
    p1 := { name := "P1", is_ai := false, cities := [] },
    p2 := { name := "P2", is_ai := false, cities := [] },
    current_player := "P1", turn_number := 1 }

theorem end_turn_missile_rule_witness :
    (((end_turn_fallback c1WitnessState).1).units.getD 0 dummyUnit).hp = 0 ∧
    0 < (((end_turn_curses c1WitnessState).1).units.getD 0 dummyUnit).hp :=
  end_turn_missile_rule c1WitnessState 0 (by decide) (by decide) (by decide)

/-! ### C3 : the fog-of-war invariant -/

theorem getD_len_le {α : Type} (l : List α) (j : Nat) (d : α) (h : l.length ≤ j) :
    l.getD j d = d := by
  rw [List.getD_eq_getElem?_getD, List.getElem?_eq_none h]
  rfl

theorem getD_mapIdx {α : Type} (l : List α) (f : Nat → α → α) (i : Nat) (d : α) :
    (l.mapIdx f).getD i d = if h : i < l.length then f i (l.get ⟨i, h⟩) else d := by
  split
  · rename_i h
    have h2 : i < (l.mapIdx f).length := by
      rw [List.length_mapIdx]
      exact h
    rw [List.getD_eq_getElem?_getD, List.getElem?_eq_getElem h2]
    exact List.get_mapIdx l f i h h2
  · rename_i h
    exact getD_len_le _ _ _ (by rw [List.length_mapIdx]; omega)

theorem getD_row (g : BoolGrid) (yy : Nat) (h : yy < g.length) :
    g.getD yy [] = g.get ⟨yy, h⟩ := by
  rw [List.getD_eq_getElem?_getD, List.getElem?_eq_getElem h]
  rfl

theorem getD_cell (row : List Bool) (xx : Nat) (h : xx < row.length) :
    row.getD xx false = row.get ⟨xx, h⟩ := by
  rw [List.getD_eq_getElem?_getD, List.getElem?_eq_getElem h]
  rfl

theorem cellD_clearGrid (w h : Nat) (g : BoolGrid) (xx yy : Nat)
    (ht : cellD (clearGrid w h g) xx yy = true) : cellD g xx yy = true := by
  unfold cellD at ht ⊢
  unfold clearGrid at ht
  rw [getD_mapIdx] at ht
  split at ht
  · rename_i hy
    rw [getD_row g yy hy]
    split at ht
    · rw [getD_mapIdx] at ht
      split at ht
      · rename_i hx
        split at ht
        · exact absurd ht (by simp)
        · rw [getD_cell _ _ hx]
          exact ht
      · exact absurd ht (by simp)
    · exact ht
  · exact absurd ht (by simp)

theorem cellD_markGrid_mono (w h : Nat) (x y r : Int) (g : BoolGrid) (xx yy : Nat)
    (ht : cellD g xx yy = true) : cellD (markGrid w h x y r g) xx yy = true := by
  unfold cellD at ht ⊢
  unfold markGrid
  rw [getD_mapIdx]
  split
  · rename_i hy
    rw [getD_row g yy hy] at ht
    split
    · rw [getD_mapIdx]
      split
      · rename_i hx
        rw [getD_cell _ _ hx] at ht
        split
        · rfl
        · exact ht
      · rename_i hx
        exact absurd ht (by rw [getD_len_le _ _ _ (le_of_not_lt hx)]; simp)
    · exact ht
  · rename_i hy
    exact absurd ht (by rw [getD_len_le g _ _ (le_of_not_lt hy)]; simp [cellD])

theorem cellD_markGrid_cases (w h : Nat) (x y r : Int) (g : BoolGrid) (xx yy : Nat)
    (ht : cellD (markGrid w h x y r g) xx yy = true) :
    cellD g xx yy = true ∨
    (yy < g.length ∧ yy < h ∧ xx < (g.getD yy []).length ∧ xx < w ∧
      inCircle x y r (xx : Int) (yy : Int) = true) := by
  unfold cellD at ht ⊢
  unfold markGrid at ht
  rw [getD_mapIdx] at ht
  split at ht
  · rename_i hy
    rw [getD_row g yy hy]
    split at ht
    · rename_i hyh
      rw [getD_mapIdx] at ht
      split at ht
      · rename_i hx
        split at ht
        · rename_i hcond
          right
          have hcond2 := (Bool.and_eq_true _ _).mp hcond
          refine ⟨hy, hyh, ?_, by simpa using hcond2.1, hcond2.2⟩
          exact hx
        · left
          rw [getD_cell _ _ hx]
          exact ht
      · exact absurd ht (by simp)
    · left
      exact ht
  · exact absurd ht (by simp)

theorem getD_mapIdx2 {α : Type} (l : List α) (f : Nat → α → α) (i : Nat) (d : α)
    (h : i < l.length) : (l.mapIdx f).getD i d = f i (l.getD i d) := by
  rw [getD_mapIdx, dif_pos h, List.getD_eq_getElem?_getD, List.getElem?_eq_getElem h]
  rfl

theorem cellD_markGrid_write (w h : Nat) (x y r : Int) (g : BoolGrid) (xx yy : Nat)
    (hy : yy < g.length) (hyh : yy < h) (hx : xx < (g.getD yy []).length) (hxw : xx < w)
    (hc : inCircle x y r (xx : Int) (yy : Int) = true) :
    cellD (markGrid w h x y r g) xx yy = true := by
  unfold cellD markGrid
  rw [getD_mapIdx2 _ _ _ _ hy, if_pos hyh, getD_mapIdx2 _ _ _ _ hx, if_pos]
  rw [Bool.and_eq_true]
  exact ⟨by simpa using hxw, hc⟩

theorem clearGrid_length (w h : Nat) (g : BoolGrid) :
    (clearGrid w h g).length = g.length := by
  unfold clearGrid
  exact List.length_mapIdx

theorem clearGrid_row_length (w h : Nat) (g : BoolGrid) (i : Nat) :
    ((clearGrid w h g).getD i []).length = (g.getD i []).length := by
  unfold clearGrid
  rw [getD_mapIdx]
  split
  · rename_i hi
    rw [getD_row g i hi]
    split
    · exact List.length_mapIdx
    · rfl
  · rename_i hi
    rw [getD_len_le g _ _ (le_of_not_lt hi)]

theorem markGrid_length (w h : Nat) (x y r : Int) (g : BoolGrid) :
    (markGrid w h x y r g).length = g.length := by
  unfold markGrid
  exact List.length_mapIdx

theorem markGrid_row_length (w h : Nat) (x y r : Int) (g : BoolGrid) (i : Nat) :
    ((markGrid w h x y r g).getD i []).length = (g.getD i []).length := by
  unfold markGrid
  rw [getD_mapIdx]
  split
  · rename_i hi
    rw [getD_row g i hi]
    split
    · exact List.length_mapIdx
    · rfl
  · rename_i hi
    rw [getD_len_le g _ _ (le_of_not_lt hi)]

theorem fowLookup_update_self (g : FowGrids) (p : String) (f : BoolGrid → BoolGrid) :
    fowLookup (fowUpdate g p f) p = (fowLookup g p).map f := by
  induction g with
  | nil => rfl
  | cons e rest ih =>
    unfold fowUpdate
    by_cases he : (e.1 == p) = true
    · rw [if_pos he]
      unfold fowLookup
      rw [List.find?_cons_of_pos _ (by exact he), List.find?_cons_of_pos _ (by exact he)]
      rfl
    · rw [if_neg he]
      unfold fowLookup at ih ⊢
      rw [List.find?_cons_of_neg _ (by exact he), List.find?_cons_of_neg _ (by exact he)]
      exact ih

theorem fowLookup_update_other (g : FowGrids) (p q : String) (f : BoolGrid → BoolGrid)
    (hq : (q == p) = false) :
    fowLookup (fowUpdate g p f) q = fowLookup g q := by
  induction g with
  | nil => rfl
  | cons e rest ih =>
    unfold fowUpdate
    by_cases he : (e.1 == p) = true
    · rw [if_pos he]
      have hep : e.1 = p := eq_of_beq he
      have heq : (e.1 == q) = false := by
        rw [hep]
        rw [beq_eq_false_iff_ne] at hq ⊢
        exact fun hpq => hq hpq.symm
      unfold fowLookup
      rw [List.find?_cons_of_neg _ (by exact (Bool.not_eq_true _).mpr heq),
        List.find?_cons_of_neg _ (by exact (Bool.not_eq_true _).mpr heq)]
    · rw [if_neg he]
      by_cases heq : (e.1 == q) = true
      · unfold fowLookup
        rw [List.find?_cons_of_pos _ (by exact heq), List.find?_cons_of_pos _ (by exact heq)]
      · unfold fowLookup at ih ⊢
        rw [List.find?_cons_of_neg _ (by exact heq),
          List.find?_cons_of_neg _ (by exact heq)]
        exact ih

theorem cellD_falseGrid (w h xx yy : Nat) : cellD (falseGrid w h) xx yy = false := by
  unfold cellD falseGrid
  by_cases hy : yy < h
  · have hrow : ((List.range h).map (fun _ => (List.range w).map fun _ => false)).getD yy [] =
        (List.range w).map (fun _ => false) := by
      rw [List.getD_eq_getElem?_getD, List.getElem?_map, List.getElem?_range hy]
      rfl
    rw [hrow]
    by_cases hx : xx < w
    · rw [List.getD_eq_getElem?_getD, List.getElem?_map, List.getElem?_range hx]
      rfl
    · exact getD_len_le _ _ _ (by simpa using le_of_not_lt hx)
  · have hrow : ((List.range h).map (fun _ => (List.range w).map fun _ => false)).getD yy [] =
        ([] : List Bool) := by
      rw [List.getD_eq_getElem?_getD, List.getElem?_map,
        List.getElem?_eq_none (by simpa using le_of_not_lt hy)]
      rfl
    rw [hrow]
    rfl

theorem fowCell_init_grid (players : List String) (w h : Nat) (q : String) (xx yy : Nat) :
    fowCell (players.map (fun p => (p, falseGrid w h))) q xx yy = false := by
  induction players with
  | nil => rfl
  | cons p ps ih =>
    unfold fowCell fowLookup at ih ⊢
    rw [List.map_cons]
    by_cases hp : (p == q) = true
    · rw [List.find?_cons_of_pos _ (by exact hp)]
      exact cellD_falseGrid w h xx yy
    · rw [List.find?_cons_of_neg _ (by exact hp)]
      exact ih

theorem fowAligned_applyOp (m : GameMap) (op : FowOp) (hAl : fowAligned m) :
    fowAligned (applyFowOp m op) := by
  cases op with
  | init ps =>
    intro p
    exact ⟨rfl, fun i => rfl⟩
  | clearVisible q =>
    show fowAligned (m.clear_visible_for q)
    unfold GameMap.clear_visible_for
    split
    · intro p
      by_cases hp : (p == q) = true
      · have hpq : p = q := eq_of_beq hp
        subst hpq
        show ((fowLookup (fowUpdate m.visible p (clearGrid m.width m.height)) p).getD []).length = _ ∧ _
        rw [fowLookup_update_self]
        cases hL : fowLookup m.visible p with
        | none =>
          have := hAl p
          rw [hL] at this
          exact this
        | some g =>
          have := hAl p
          rw [hL] at this
          refine ⟨?_, fun i => ?_⟩
          · rw [Option.map_some']
            show (clearGrid m.width m.height g).length = _
            rw [clearGrid_length]
            exact this.1
          · rw [Option.map_some']
            show ((clearGrid m.width m.height g).getD i []).length = _
            rw [clearGrid_row_length]
            exact this.2 i
      · have hp2 : (p == q) = false := (Bool.not_eq_true _).mp hp
        show ((fowLookup (fowUpdate m.visible q (clearGrid m.width m.height)) p).getD []).length = _ ∧ _
        rw [fowLookup_update_other _ _ _ _ hp2]
        exact hAl p
    · exact hAl
  | markCircle q x y r =>
    show fowAligned (m.mark_visible_circle q x y r)
    unfold GameMap.mark_visible_circle
    split
    · intro p
      by_cases hp : (p == q) = true
      · have hpq : p = q := eq_of_beq hp
        subst hpq
        show ((fowLookup (fowUpdate m.visible p (markGrid m.width m.height x y r)) p).getD []).length =
          ((fowLookup (fowUpdate m.explored p (markGrid m.width m.height x y r)) p).getD []).length ∧ _
        rw [fowLookup_update_self, fowLookup_update_self]
        have hthis := hAl p
        cases hL : fowLookup m.visible p with
        | none =>
          rw [hL] at hthis
          cases hE : fowLookup m.explored p with
          | none => exact ⟨rfl, fun i => rfl⟩
          | some ge =>
            rw [hE] at hthis
            refine ⟨?_, fun i => ?_⟩
            · rw [Option.map_none', Option.map_some']
              show ([] : BoolGrid).length = (markGrid m.width m.height x y r ge).length
              rw [markGrid_length]
              exact hthis.1
            · rw [Option.map_none', Option.map_some']
              show (([] : BoolGrid).getD i []).length = ((markGrid m.width m.height x y r ge).getD i []).length
              rw [markGrid_row_length]
              exact hthis.2 i
        | some gv =>
          rw [hL] at hthis
          cases hE : fowLookup m.explored p with
          | none =>
            rw [hE] at hthis
            refine ⟨?_, fun i => ?_⟩
            · rw [Option.map_none', Option.map_some']
              show (markGrid m.width m.height x y r gv).length = ([] : BoolGrid).length
              rw [markGrid_length]
              exact hthis.1
            · rw [Option.map_none', Option.map_some']
              show ((markGrid m.width m.height x y r gv).getD i []).length = (([] : BoolGrid).getD i []).length
              rw [markGrid_row_length]
              exact hthis.2 i
          | some ge =>
            rw [hE] at hthis
            refine ⟨?_, fun i => ?_⟩
            · rw [Option.map_some', Option.map_some']
              show (markGrid m.width m.height x y r gv).length = (markGrid m.width m.height x y r ge).length
              rw [markGrid_length, markGrid_length]
              exact hthis.1
            · rw [Option.map_some', Option.map_some']
              show ((markGrid m.width m.height x y r gv).getD i []).length =
                ((markGrid m.width m.height x y r ge).getD i []).length
              rw [markGrid_row_length, markGrid_row_length]
              exact hthis.2 i
      · have hp2 : (p == q) = false := (Bool.not_eq_true _).mp hp
        show ((fowLookup (fowUpdate m.visible q (markGrid m.width m.height x y r)) p).getD []).length =
          ((fowLookup (fowUpdate m.explored q (markGrid m.width m.height x y r)) p).getD []).length ∧ _
        rw [fowLookup_update_other _ _ _ _ hp2, fowLookup_update_other _ _ _ _ hp2]
        exact hAl p
    · exact hAl

theorem fowSubset_applyOp (m : GameMap) (op : FowOp) (hAl : fowAligned m)
    (hSub : fowSubset m) : fowSubset (applyFowOp m op) := by
  cases op with
  | init ps =>
    intro p xx yy hvis
    have hfalse : fowCell (GameMap.init_fow m ps).visible p xx yy = false :=
      fowCell_init_grid ps m.width m.height p xx yy
    have : (true : Bool) = false := hvis ▸ hfalse
    cases this
  | clearVisible q =>
    show fowSubset (m.clear_visible_for q)
    unfold GameMap.clear_visible_for
    split
    · intro p xx yy hvis
      show fowCell m.explored p xx yy = true
      by_cases hp : (p == q) = true
      · have hpq := eq_of_beq hp
        subst hpq
        have hv2 : fowCell (fowUpdate m.visible p (clearGrid m.width m.height)) p xx yy =
          true := hvis
        unfold fowCell at hv2
        rw [fowLookup_update_self] at hv2
        cases hL : fowLookup m.visible p with
        | none =>
          rw [hL] at hv2
          exact absurd hv2 (by simp [cellD])
        | some g =>
          rw [hL, Option.map_some', Option.getD_some] at hv2
          have hg := cellD_clearGrid _ _ _ _ _ hv2
          apply hSub
          unfold fowCell
          rw [hL, Option.getD_some]
          exact hg
      · have hp2 : (p == q) = false := (Bool.not_eq_true _).mp hp
        apply hSub
        have hv2 : fowCell (fowUpdate m.visible q (clearGrid m.width m.height)) p xx yy =
          true := hvis
        unfold fowCell at hv2 ⊢
        rw [fowLookup_update_other _ _ _ _ hp2] at hv2
        exact hv2
    · exact hSub
  | markCircle q x y r =>
    show fowSubset (m.mark_visible_circle q x y r)
    unfold GameMap.mark_visible_circle
    split
    · rename_i hguard
      have hguard2 := (Bool.and_eq_true _ _).mp hguard
      intro p xx yy hvis
      by_cases hp : (p == q) = true
      · have hpq := eq_of_beq hp
        subst hpq
        have hv2 : fowCell (fowUpdate m.visible p (markGrid m.width m.height x y r)) p xx yy =
          true := hvis
        show fowCell (fowUpdate m.explored p (markGrid m.width m.height x y r)) p xx yy = true
        unfold fowCell at hv2 ⊢
        rw [fowLookup_update_self] at hv2
        rw [fowLookup_update_self]
        cases hL : fowLookup m.visible p with
        | none =>
          have := hguard2.1
          rw [hL] at this
          cases this
        | some gv =>
          cases hE : fowLookup m.explored p with
          | none =>
            have := hguard2.2
            rw [hE] at this
            cases this
          | some ge =>
            rw [hL, Option.map_some', Option.getD_some] at hv2
            rw [Option.map_some', Option.getD_some]
            rcases cellD_markGrid_cases _ _ _ _ _ _ _ _ hv2 with hold | hw
            · have hse : cellD ge xx yy = true := by
                have hs := hSub p xx yy (by unfold fowCell; rw [hL, Option.getD_some]; exact hold)
                unfold fowCell at hs
                rw [hE, Option.getD_some] at hs
                exact hs
              exact cellD_markGrid_mono _ _ _ _ _ _ _ _ hse
            · obtain ⟨h1, h2, h3, h4, h5⟩ := hw
              have hal := hAl p
              rw [hL, hE] at hal
              simp only [Option.getD_some] at hal
              apply cellD_markGrid_write
              · omega
              · exact h2
              · rw [← hal.2 yy]
                exact h3
              · exact h4
              · exact h5
      · have hp2 : (p == q) = false := (Bool.not_eq_true _).mp hp
        have hv2 : fowCell (fowUpdate m.visible q (markGrid m.width m.height x y r)) p xx yy =
          true := hvis
        show fowCell (fowUpdate m.explored q (markGrid m.width m.height x y r)) p xx yy = true
        unfold fowCell at hv2 ⊢
        rw [fowLookup_update_other _ _ _ _ hp2] at hv2
        rw [fowLookup_update_other _ _ _ _ hp2]
        exact hSub p xx yy hv2
    · exact hSub

theorem fowExplored_mono_applyOp (m : GameMap) (op : FowOp) (hni : op.nonInit = true)
    (p : String) (xx yy : Nat) (h : fowCell m.explored p xx yy = true) :
    fowCell (applyFowOp m op).explored p xx yy = true := by
  cases op with
  | init ps => cases hni
  | clearVisible q =>
    show fowCell (m.clear_visible_for q).explored p xx yy = true
    unfold GameMap.clear_visible_for
    split
    · exact h
    · exact h
  | markCircle q x y r =>
    show fowCell (m.mark_visible_circle q x y r).explored p xx yy = true
    unfold GameMap.mark_visible_circle
    split
    · by_cases hp : (p == q) = true
      · have hpq := eq_of_beq hp
        subst hpq
        show fowCell (fowUpdate m.explored p (markGrid m.width m.height x y r)) p xx yy = true
        unfold fowCell at h ⊢
        rw [fowLookup_update_self]
        cases hE : fowLookup m.explored p with
        | none =>
          rw [hE] at h
          exact absurd h (by simp [cellD])
        | some ge =>
          rw [hE, Option.getD_some] at h
          rw [Option.map_some', Option.getD_some]
          exact cellD_markGrid_mono _ _ _ _ _ _ _ _ h
      · have hp2 : (p == q) = false := (Bool.not_eq_true _).mp hp
        show fowCell (fowUpdate m.explored q (markGrid m.width m.height x y r)) p xx yy = true
        unfold fowCell at h ⊢
        rw [fowLookup_update_other _ _ _ _ hp2]
        exact h
    · exact h

/-- C3 (amended): from any map whose per-player `visible` and `explored` grids
agree in shape (as every state produced by `init_fow` does), every sequence of
`init_fow` / `clear_visible_for` / `mark_visible_circle` calls preserves the
shape agreement and the invariant visible[p][t] = true → explored[p][t] = true;
and a set `explored` bit survives every sequence that contains no `init_fow`
call — but not `init_fow` itself, which reallocates both dicts all-false. -/
theorem fow_visible_subset_explored (m : GameMap) (ops : List FowOp)
    (hAl : fowAligned m) (hSub : fowSubset m) :
    (fowAligned (applyFowOps m ops) ∧ fowSubset (applyFowOps m ops)) ∧
    (ops.all FowOp.nonInit = true → ∀ (p : String) (xx yy : Nat),
      fowCell m.explored p xx yy = true →
      fowCell (applyFowOps m ops).explored p xx yy = true) := by
  induction ops generalizing m with
  | nil => exact ⟨⟨hAl, hSub⟩, fun _ p xx yy h => h⟩
  | cons op rest ih =>
    have hAl1 := fowAligned_applyOp m op hAl
    have hSub1 := fowSubset_applyOp m op hAl hSub
    obtain ⟨hmain, hmono⟩ := ih (applyFowOp m op) hAl1 hSub1
    refine ⟨hmain, fun hall p xx yy h => ?_⟩
    rw [List.all_cons, Bool.and_eq_true] at hall
    exact hmono hall.2 p xx yy (fowExplored_mono_applyOp m op hall.1 p xx yy h)

/-- A 1×1 world with both FoW dicts initialised for player "P1". -/
def c3Map : GameMap :=
  { width := 1, height := 1, tiles := [['+']], cities := [], fog := [[false]],
    explored := [("P1", [[false]])], visible := [("P1", [[false]])] }

/-- C3 counterexample: marking tile (0,0) visible sets explored["P1"][0][0],
but a subsequent `init_fow` call clears it again — `explored[p][t]` is not
"never cleared once set" under arbitrary sequences of the three calls. -/
theorem init_fow_clears_explored :
    fowCell (applyFowOps c3Map [.markCircle "P1" 0 0 0]).explored "P1" 0 0 = true ∧
    fowCell (applyFowOps c3Map [.markCircle "P1" 0 0 0, .init ["P1"]]).explored "P1" 0 0 =
      false := by
  exact ⟨by decide, by decide⟩

theorem fow_visible_subset_explored_witness :
    (fowAligned (applyFowOps c3Map [.markCircle "P1" 0 0 2]) ∧
      fowSubset (applyFowOps c3Map [.markCircle "P1" 0 0 2])) ∧
    ([FowOp.markCircle "P1" 0 0 2].all FowOp.nonInit = true → ∀ (p : String) (xx yy : Nat),
      fowCell c3Map.explored p xx yy = true →
      fowCell (applyFowOps c3Map [.markCircle "P1" 0 0 2]).explored p xx yy = true) :=
  fow_visible_subset_explored c3Map [.markCircle "P1" 0 0 2]
    (fun _ => ⟨rfl, fun _ => rfl⟩) (fun _ _ _ h => h)

/-! ### C4 : terrain generation and land connectivity -/

theorem set_getD_gen {α : Type} (l : List α) (i j : Nat) (v d : α) :
    (l.set i v).getD j d = if i = j ∧ i < l.length then v else l.getD j d := by
  rw [List.getD_eq_getElem?_getD, List.getElem?_set]
  by_cases hij : i = j
  · subst hij
    by_cases hi : i < l.length
    · rw [if_pos rfl, if_pos hi, if_pos ⟨rfl, hi⟩]
      rfl
    · rw [if_pos rfl, if_neg hi, if_neg (by tauto)]
      rw [List.getD_eq_getElem?_getD, List.getElem?_eq_none (by omega)]
  · rw [if_neg hij, if_neg (by tauto), List.getD_eq_getElem?_getD]

theorem landAt_eq_true (w h : Nat) (g : TileGrid) (x y : Int) :
    landAt w h g x y = true ↔ 0 ≤ x ∧ x < (w : Int) ∧ 0 ≤ y ∧ y < (h : Int) ∧
      (g.getD y.toNat []).getD x.toNat '.' = '+' := by
  unfold landAt
  simp [Bool.and_eq_true, decide_eq_true_eq, beq_iff_eq, and_assoc]

theorem landAt_set_mono (w h : Nat) (g : TileGrid) (x y a b : Int)
    (hl : landAt w h g a b = true) : landAt w h (setLandTile g x y) a b = true := by
  rw [landAt_eq_true] at hl ⊢
  obtain ⟨h1, h2, h3, h4, h5⟩ := hl
  refine ⟨h1, h2, h3, h4, ?_⟩
  unfold setLandTile
  rw [set_getD_gen]
  split
  · rename_i hcond
    rw [hcond.1, set_getD_gen]
    split
    · rfl
    · exact h5
  · exact h5

theorem landAt_set_self (w h : Nat) (g : TileGrid) (x y : Int) (hwf : gridWF w h g)
    (h1 : 0 ≤ x) (h2 : x < (w : Int)) (h3 : 0 ≤ y) (h4 : y < (h : Int)) :
    landAt w h (setLandTile g x y) x y = true := by
  rw [landAt_eq_true]
  refine ⟨h1, h2, h3, h4, ?_⟩
  unfold setLandTile
  have hylen : y.toNat < g.length := by
    rw [hwf.1]
    omega
  have hrow : (g.getD y.toNat []).length = w := by
    rw [List.getD_eq_getElem?_getD, List.getElem?_eq_getElem hylen]
    exact hwf.2 _ (List.getElem_mem _)
  rw [set_getD_gen, if_pos ⟨rfl, hylen⟩, set_getD_gen, if_pos ⟨rfl, by rw [hrow]; omega⟩]

theorem landAt_set_cases (w h : Nat) (g : TileGrid) (x y a b : Int)
    (hx : 0 ≤ x) (hy : 0 ≤ y)
    (hl : landAt w h (setLandTile g x y) a b = true) :
    landAt w h g a b = true ∨ (a = x ∧ b = y) := by
  rw [landAt_eq_true] at hl
  obtain ⟨h1, h2, h3, h4, h5⟩ := hl
  unfold setLandTile at h5
  rw [set_getD_gen] at h5
  split at h5
  · rename_i hcond
    obtain ⟨hyb, _⟩ := hcond
    rw [set_getD_gen] at h5
    split at h5
    · rename_i hcond2
      obtain ⟨hxa, _⟩ := hcond2
      right
      exact ⟨by omega, by omega⟩
    · left
      rw [landAt_eq_true]
      refine ⟨h1, h2, h3, h4, ?_⟩
      rw [← hyb]
      exact h5
  · left
    rw [landAt_eq_true]
    exact ⟨h1, h2, h3, h4, h5⟩

theorem setLandTile_wf (w h : Nat) (g : TileGrid) (x y : Int) (hwf : gridWF w h g) :
    gridWF w h (setLandTile g x y) := by
  unfold setLandTile
  by_cases hylen : y.toNat < g.length
  · refine ⟨by rw [List.length_set]; exact hwf.1, ?_⟩
    intro row hrow
    rcases List.mem_or_eq_of_mem_set hrow with hm | hm
    · exact hwf.2 row hm
    · subst hm
      rw [List.length_set]
      rw [List.getD_eq_getElem?_getD, List.getElem?_eq_getElem hylen]
      exact hwf.2 _ (List.getElem_mem _)
  · rw [List.set_eq_of_length_le (by omega)]
    exact hwf

theorem landStep_symm (w h : Nat) (g : TileGrid) : Symmetric (landStep w h g) := by
  intro a b hab
  obtain ⟨ha, hb, hd⟩ := hab
  refine ⟨hb, ha, ?_⟩
  rcases hd with ⟨h1, h2⟩ | ⟨h1, h2⟩
  · exact Or.inl ⟨h1.symm, by omega⟩
  · exact Or.inr ⟨h1.symm, by omega⟩

theorem landReach_symm (w h : Nat) (g : TileGrid) {a b : Int × Int}
    (hab : landReach w h g a b) : landReach w h g b a :=
  Relation.ReflTransGen.symmetric (landStep_symm w h g) hab

theorem landReach_mono (w h : Nat) (g g2 : TileGrid)
    (hmono : ∀ a b : Int, landAt w h g a b = true → landAt w h g2 a b = true)
    {a b : Int × Int} (hr : landReach w h g a b) : landReach w h g2 a b :=
  Relation.ReflTransGen.mono
    (fun u v hs => ⟨hmono u.1 u.2 hs.1, hmono v.1 v.2 hs.2.1, hs.2.2⟩) hr

theorem reach_horiz (w h : Nat) (g : TileGrid) (y : Int) :
    ∀ (n : Nat) (a b : Int), (b - a).natAbs = n →
    (∀ t, min a b ≤ t → t ≤ max a b → landAt w h g t y = true) →
    landReach w h g (a, y) (b, y) := by
  intro n
  induction n with
  | zero =>
    intro a b hab _
    have hab2 : a = b := by omega
    subst hab2
    exact Relation.ReflTransGen.refl
  | succ k ih =>
    intro a b hab hland
    by_cases hlt : a < b
    · have hstep : landStep w h g (a, y) (a + 1, y) :=
        ⟨hland a (by omega) (by omega), hland (a + 1) (by omega) (by omega),
          Or.inr ⟨rfl, by omega⟩⟩
      exact Relation.ReflTransGen.head hstep
        (ih (a + 1) b (by omega) (fun t h1 h2 => hland t (by omega) (by omega)))
    · have hstep : landStep w h g (a, y) (a - 1, y) :=
        ⟨hland a (by omega) (by omega), hland (a - 1) (by omega) (by omega),
          Or.inr ⟨rfl, by omega⟩⟩
      exact Relation.ReflTransGen.head hstep
        (ih (a - 1) b (by omega) (fun t h1 h2 => hland t (by omega) (by omega)))

theorem reach_vert (w h : Nat) (g : TileGrid) (x : Int) :
    ∀ (n : Nat) (a b : Int), (b - a).natAbs = n →
    (∀ t, min a b ≤ t → t ≤ max a b → landAt w h g x t = true) →
    landReach w h g (x, a) (x, b) := by
  intro n
  induction n with
  | zero =>
    intro a b hab _
    have hab2 : a = b := by omega
    subst hab2
    exact Relation.ReflTransGen.refl
  | succ k ih =>
    intro a b hab hland
    by_cases hlt : a < b
    · have hstep : landStep w h g (x, a) (x, a + 1) :=
        ⟨hland a (by omega) (by omega), hland (a + 1) (by omega) (by omega),
          Or.inl ⟨rfl, by omega⟩⟩
      exact Relation.ReflTransGen.head hstep
        (ih (a + 1) b (by omega) (fun t h1 h2 => hland t (by omega) (by omega)))
    · have hstep : landStep w h g (x, a) (x, a - 1) :=
        ⟨hland a (by omega) (by omega), hland (a - 1) (by omega) (by omega),
          Or.inl ⟨rfl, by omega⟩⟩
      exact Relation.ReflTransGen.head hstep
        (ih (a - 1) b (by omega) (fun t h1 h2 => hland t (by omega) (by omega)))

theorem carveX_spec (w h : Nat) :
    ∀ (fuel : Nat) (g : TileGrid) (x y x1 : Int),
    gridWF w h g → fuel = (x1 - x).natAbs →
    0 ≤ y → y < (h : Int) → 0 ≤ min x x1 → max x x1 < (w : Int) →
    gridWF w h (carveX fuel g x y x1) ∧
    (∀ a b : Int, landAt w h g a b = true → landAt w h (carveX fuel g x y x1) a b = true) ∧
    (∀ a b : Int, landAt w h (carveX fuel g x y x1) a b = true →
      landAt w h g a b = true ∨ (b = y ∧ min x x1 ≤ a ∧ a ≤ max x x1)) ∧
    (∀ t : Int, min x x1 ≤ t → t ≤ max x x1 → t ≠ x1 →
      landAt w h (carveX fuel g x y x1) t y = true) := by
  intro fuel
  induction fuel with
  | zero =>
    intro g x y x1 hwf hfuel hy1 hy2 hb1 hb2
    have hx : x = x1 := by omega
    subst hx
    exact ⟨hwf, fun a b hl => hl, fun a b hl => Or.inl hl,
      fun t h1 h2 h3 => absurd (show t = x by omega) h3⟩
  | succ k ih =>
    intro g x y x1 hwf hfuel hy1 hy2 hb1 hb2
    have hxne : x ≠ x1 := by omega
    have hd : (x < x1 ∧ (if x < x1 then x + 1 else x - 1) = x + 1) ∨
        (x1 < x ∧ (if x < x1 then x + 1 else x - 1) = x - 1) := by
      split
      · exact Or.inl ⟨by omega, rfl⟩
      · exact Or.inr ⟨by omega, rfl⟩
    simp only [carveX]
    obtain ⟨ihwf, ihmono, ihcases, ihwrite⟩ :=
      ih (setLandTile g x y) (if x < x1 then x + 1 else x - 1) y x1
        (setLandTile_wf w h g x y hwf) (by omega) hy1 hy2 (by omega) (by omega)
    refine ⟨ihwf, ?_, ?_, ?_⟩
    · intro a b hl
      exact ihmono a b (landAt_set_mono w h g x y a b hl)
    · intro a b hl
      rcases ihcases a b hl with hl2 | hseg
      · rcases landAt_set_cases w h g x y a b (by omega) hy1 hl2 with hl3 | ⟨ha, hb⟩
        · exact Or.inl hl3
        · exact Or.inr ⟨hb, by omega, by omega⟩
      · obtain ⟨hby, hs1, hs2⟩ := hseg
        exact Or.inr ⟨hby, by omega, by omega⟩
    · intro t h1 h2 h3
      by_cases hta : t = x
      · subst hta
        exact ihmono t y (landAt_set_self w h g t y hwf (by omega) (by omega) hy1 hy2)
      · exact ihwrite t (by omega) (by omega) h3

theorem carveY_spec (w h : Nat) :
    ∀ (fuel : Nat) (g : TileGrid) (x y y1 : Int),
    gridWF w h g → fuel = (y1 - y).natAbs →
    0 ≤ x → x < (w : Int) → 0 ≤ min y y1 → max y y1 < (h : Int) →
    gridWF w h (carveY fuel g x y y1) ∧
    (∀ a b : Int, landAt w h g a b = true → landAt w h (carveY fuel g x y y1) a b = true) ∧
    (∀ a b : Int, landAt w h (carveY fuel g x y y1) a b = true →
      landAt w h g a b = true ∨ (a = x ∧ min y y1 ≤ b ∧ b ≤ max y y1)) ∧
    (∀ t : Int, min y y1 ≤ t → t ≤ max y y1 → t ≠ y1 →
      landAt w h (carveY fuel g x y y1) x t = true) := by
  intro fuel
  induction fuel with
  | zero =>
    intro g x y y1 hwf hfuel hx1 hx2 hb1 hb2
    have hy : y = y1 := by omega
    subst hy
    exact ⟨hwf, fun a b hl => hl, fun a b hl => Or.inl hl,
      fun t h1 h2 h3 => absurd (show t = y by omega) h3⟩
  | succ k ih =>
    intro g x y y1 hwf hfuel hx1 hx2 hb1 hb2
    have hyne : y ≠ y1 := by omega
    have hd : (y < y1 ∧ (if y < y1 then y + 1 else y - 1) = y + 1) ∨
        (y1 < y ∧ (if y < y1 then y + 1 else y - 1) = y - 1) := by
      split
      · exact Or.inl ⟨by omega, rfl⟩
      · exact Or.inr ⟨by omega, rfl⟩
    simp only [carveY]
    obtain ⟨ihwf, ihmono, ihcases, ihwrite⟩ :=
      ih (setLandTile g x y) x (if y < y1 then y + 1 else y - 1) y1
        (setLandTile_wf w h g x y hwf) (by omega) hx1 hx2 (by omega) (by omega)
    refine ⟨ihwf, ?_, ?_, ?_⟩
    · intro a b hl
      exact ihmono a b (landAt_set_mono w h g x y a b hl)
    · intro a b hl
      rcases ihcases a b hl with hl2 | hseg
      · rcases landAt_set_cases w h g x y a b hx1 (by omega) hl2 with hl3 | ⟨ha, hb⟩
        · exact Or.inl hl3
        · exact Or.inr ⟨ha, by omega, by omega⟩
      · obtain ⟨hax, hs1, hs2⟩ := hseg
        exact Or.inr ⟨hax, by omega, by omega⟩
    · intro t h1 h2 h3
      by_cases hta : t = y
      · subst hta
        exact ihmono x t (landAt_set_self w h g x t hwf hx1 hx2 (by omega) (by omega))
      · exact ihwrite t (by omega) (by omega) h3

theorem carve_path_spec (w h : Nat) (g : TileGrid) (x0 y0 x1 y1 : Int)
    (hwf : gridWF w h g)
    (hb0 : 0 ≤ x0 ∧ x0 < (w : Int) ∧ 0 ≤ y0 ∧ y0 < (h : Int))
    (hb1 : 0 ≤ x1 ∧ x1 < (w : Int) ∧ 0 ≤ y1 ∧ y1 < (h : Int)) :
    gridWF w h (carve_path g x0 y0 x1 y1) ∧
    (∀ a b : Int, landAt w h g a b = true →
        landAt w h (carve_path g x0 y0 x1 y1) a b = true) ∧
    landReach w h (carve_path g x0 y0 x1 y1) (x0, y0) (x1, y1) ∧
    (∀ a b : Int, landAt w h (carve_path g x0 y0 x1 y1) a b = true →
        landAt w h g a b = true ∨
        landReach w h (carve_path g x0 y0 x1 y1) (a, b) (x1, y1)) := by
  obtain ⟨hx00, hx0w, hy00, hy0h⟩ := hb0
  obtain ⟨hx10, hx1w, hy10, hy1h⟩ := hb1
  obtain ⟨h1wf, h1mono, h1cases, h1write⟩ :=
    carveX_spec w h ((x1 - x0).natAbs) g x0 y0 x1 hwf rfl hy00 hy0h (by omega) (by omega)
  obtain ⟨h2wf, h2mono, h2cases, h2write⟩ :=
    carveY_spec w h ((y1 - y0).natAbs) (carveX (x1 - x0).natAbs g x0 y0 x1) x1 y0 y1
      h1wf rfl hx10 hx1w (by omega) (by omega)
  unfold carve_path
  set GF := setLandTile
    (carveY (y1 - y0).natAbs (carveX (x1 - x0).natAbs g x0 y0 x1) x1 y0 y1) x1 y1 with hGFdef
  have hGFwf : gridWF w h GF := setLandTile_wf w h _ x1 y1 h2wf
  have monoGF : ∀ a b : Int,
      landAt w h (carveY (y1 - y0).natAbs (carveX (x1 - x0).natAbs g x0 y0 x1) x1 y0 y1) a b =
        true → landAt w h GF a b = true :=
    fun a b hl => landAt_set_mono w h _ x1 y1 a b hl
  have hEnd : landAt w h GF x1 y1 = true :=
    landAt_set_self w h _ x1 y1 h2wf hx10 hx1w hy10 hy1h
  have horizLand : ∀ t : Int, min x0 x1 ≤ t → t ≤ max x0 x1 →
      landAt w h GF t y0 = true := by
    intro t h1 h2
    by_cases htx : t = x1
    · subst htx
      by_cases hyy : y0 = y1
      · rw [hyy]
        exact hEnd
      · exact monoGF _ _ (h2write y0 (by omega) (by omega) hyy)
    · exact monoGF _ _ (h2mono _ _ (h1write t h1 h2 htx))
  have vertLand : ∀ t : Int, min y0 y1 ≤ t → t ≤ max y0 y1 →
      landAt w h GF x1 t = true := by
    intro t h1 h2
    by_cases hty : t = y1
    · subst hty
      exact hEnd
    · exact monoGF _ _ (h2write t h1 h2 hty)
  have hreachH : landReach w h GF (x0, y0) (x1, y0) :=
    reach_horiz w h GF y0 ((x1 - x0).natAbs) x0 x1 rfl horizLand
  have hreachV : landReach w h GF (x1, y0) (x1, y1) :=
    reach_vert w h GF x1 ((y1 - y0).natAbs) y0 y1 rfl vertLand
  refine ⟨hGFwf, ?_, hreachH.trans hreachV, ?_⟩
  · intro a b hl
    exact monoGF a b (h2mono a b (h1mono a b hl))
  · intro a b hl
    rcases landAt_set_cases w h _ x1 y1 a b hx10 hy10 hl with hl2 | ⟨ha, hb⟩
    · rcases h2cases a b hl2 with hl3 | ⟨hax1, hs1, hs2⟩
      · rcases h1cases a b hl3 with hl4 | ⟨hby, ht1, ht2⟩
        · exact Or.inl hl4
        · right
          rw [hby]
          have hr1 : landReach w h GF (a, y0) (x1, y0) :=
            reach_horiz w h GF y0 ((x1 - a).natAbs) a x1 rfl
              (fun t hu1 hu2 => horizLand t (by omega) (by omega))
          exact hr1.trans hreachV
      · right
        rw [hax1]
        exact reach_vert w h GF x1 ((y1 - b).natAbs) b y1 rfl
          (fun t hu1 hu2 => vertLand t (by omega) (by omega))
    · right
      rw [ha, hb]
      exact Relation.ReflTransGen.refl

theorem tryVisit_inv (w h : Nat) (g : TileGrid) (visited0 : List (Int × Int))
    (start : Int × Int)
    (st : List (Int × Int) × List (Int × Int) × List (Int × Int)) (ny nx : Int)
    (hInv : bfsInv w h g visited0 start st)
    (hadj : landAt w h g nx ny = true → landReach w h g start (nx, ny)) :
    bfsInv w h g visited0 start (tryVisit w h g st ny nx) ∧
    ∃ ext, (tryVisit w h g st ny nx).2.2 = st.2.2 ++ ext := by
  unfold tryVisit
  split
  · rename_i hcond
    obtain ⟨h1, h2, h3, h4, h5, h6⟩ := hcond
    refine ⟨⟨?_, ?_, ?_⟩, [(nx, ny)], rfl⟩
    · intro v
      constructor
      · intro hv
        rcases List.mem_cons.mp hv with hv | hv
        · right
          rw [hv]
          exact List.mem_append_right _ (by simp)
        · rcases (hInv.1 v).mp hv with hv2 | hv2
          · exact Or.inl hv2
          · exact Or.inr (List.mem_append_left _ hv2)
      · intro hv
        rcases hv with hv | hv
        · exact List.mem_cons_of_mem _ ((hInv.1 v).mpr (Or.inl hv))
        · rcases List.mem_append.mp hv with hv2 | hv2
          · exact List.mem_cons_of_mem _ ((hInv.1 v).mpr (Or.inr hv2))
          · have hv3 : ((v.2 : Int), (v.1 : Int)) = (nx, ny) := by simpa using hv2
            have hveq : v = (ny, nx) := by
              obtain ⟨va, vb⟩ := v
              rw [Prod.mk.injEq] at hv3
              rw [Prod.mk.injEq]
              exact ⟨hv3.2, hv3.1⟩
            rw [hveq]
            exact List.mem_cons_self _ _
    · intro c hc
      rcases List.mem_append.mp hc with hc2 | hc2
      · exact hInv.2.1 c hc2
      · have hceq : c = (nx, ny) := by simpa using hc2
        subst hceq
        exact ⟨h6, hadj h6⟩
    · intro q hq
      rcases List.mem_append.mp hq with hq2 | hq2
      · exact List.mem_append_left _ (hInv.2.2 q hq2)
      · have hqe : q = (ny, nx) := by simpa using hq2
        subst hqe
        exact List.mem_append_right _ (by simp)
  · exact ⟨hInv, [], (List.append_nil _).symm⟩

theorem bfsLoop_inv (w h : Nat) (g : TileGrid) (visited0 : List (Int × Int))
    (start : Int × Int) :
    ∀ (fuel : Nat) (visited queue comp : List (Int × Int)),
    bfsInv w h g visited0 start (visited, queue, comp) →
    (∀ v : Int × Int, v ∈ (bfsLoop w h g fuel visited queue comp).1 ↔
        (v ∈ visited0 ∨ (v.2, v.1) ∈ (bfsLoop w h g fuel visited queue comp).2)) ∧
    (∀ c ∈ (bfsLoop w h g fuel visited queue comp).2,
        landAt w h g c.1 c.2 = true ∧ landReach w h g start c) ∧
    ∃ ext, (bfsLoop w h g fuel visited queue comp).2 = comp ++ ext := by
  intro fuel
  induction fuel with
  | zero =>
    intro visited queue comp hInv
    cases queue with
    | nil => exact ⟨hInv.1, hInv.2.1, [], (List.append_nil _).symm⟩
    | cons q rest =>
      obtain ⟨qy, qx⟩ := q
      exact ⟨hInv.1, hInv.2.1, [], (List.append_nil _).symm⟩
  | succ k ih =>
    intro visited queue comp hInv
    cases queue with
    | nil => exact ⟨hInv.1, hInv.2.1, [], (List.append_nil _).symm⟩
    | cons q rest =>
      obtain ⟨cy, cx⟩ := q
      have hhead : ((cx : Int), (cy : Int)) ∈ comp :=
        hInv.2.2 (cy, cx) (List.mem_cons_self _ _)
      obtain ⟨hlandc, hreachc⟩ := hInv.2.1 _ hhead
      have hInv0 : bfsInv w h g visited0 start (visited, rest, comp) :=
        ⟨hInv.1, hInv.2.1, fun q2 hq2 => hInv.2.2 q2 (List.mem_cons_of_mem _ hq2)⟩
      have hstepD : landAt w h g cx (cy + 1) = true →
          landReach w h g start (cx, cy + 1) :=
        fun hl => Relation.ReflTransGen.tail hreachc ⟨hlandc, hl, Or.inl ⟨rfl, by omega⟩⟩
      have hstepU : landAt w h g cx (cy - 1) = true →
          landReach w h g start (cx, cy - 1) :=
        fun hl => Relation.ReflTransGen.tail hreachc ⟨hlandc, hl, Or.inl ⟨rfl, by omega⟩⟩
      have hstepR : landAt w h g (cx + 1) cy = true →
          landReach w h g start (cx + 1, cy) :=
        fun hl => Relation.ReflTransGen.tail hreachc ⟨hlandc, hl, Or.inr ⟨rfl, by omega⟩⟩
      have hstepL : landAt w h g (cx - 1) cy = true →
          landReach w h g start (cx - 1, cy) :=
        fun hl => Relation.ReflTransGen.tail hreachc ⟨hlandc, hl, Or.inr ⟨rfl, by omega⟩⟩
      obtain ⟨hI1, e1, hE1⟩ :=
        tryVisit_inv w h g visited0 start (visited, rest, comp) (cy + 1) cx hInv0 hstepD
      obtain ⟨hI2, e2, hE2⟩ := tryVisit_inv w h g visited0 start _ (cy - 1) cx hI1 hstepU
      obtain ⟨hI3, e3, hE3⟩ := tryVisit_inv w h g visited0 start _ cy (cx + 1) hI2 hstepR
      obtain ⟨hI4, e4, hE4⟩ := tryVisit_inv w h g visited0 start _ cy (cx - 1) hI3 hstepL
      set ST := tryVisit w h g (tryVisit w h g (tryVisit w h g
        (tryVisit w h g (visited, rest, comp) (cy + 1) cx) (cy - 1) cx)
        cy (cx + 1)) cy (cx - 1) with hST
      obtain ⟨ih1, ih2, ext, ihext⟩ := ih ST.1 ST.2.1 ST.2.2 (by exact hI4)
      refine ⟨ih1, ih2, e1 ++ (e2 ++ (e3 ++ (e4 ++ ext))), ?_⟩
      have hred : (bfsLoop w h g (k + 1) visited ((cy, cx) :: rest) comp).2 =
          (bfsLoop w h g k ST.1 ST.2.1 ST.2.2).2 := rfl
      rw [hred, ihext, hE4, hE3, hE2, hE1]
      simp [List.append_assoc]

theorem bfsFrom_spec (w h : Nat) (g : TileGrid) (visited0 : List (Int × Int))
    (sy sx : Int) (hland : landAt w h g sx sy = true) :
    (∀ v : Int × Int, v ∈ (bfsFrom w h g visited0 sy sx).1 ↔
        (v ∈ visited0 ∨ (v.2, v.1) ∈ (bfsFrom w h g visited0 sy sx).2)) ∧
    (∀ c ∈ (bfsFrom w h g visited0 sy sx).2,
        landAt w h g c.1 c.2 = true ∧ landReach w h g (sx, sy) c) ∧
    ∃ ext, (bfsFrom w h g visited0 sy sx).2 = (sx, sy) :: ext := by
  have hInv : bfsInv w h g visited0 (sx, sy)
      ((sy, sx) :: visited0, [(sy, sx)], [(sx, sy)]) := by
    refine ⟨?_, ?_, ?_⟩
    · intro v
      constructor
      · intro hv
        rcases List.mem_cons.mp hv with hv | hv
        · right
          rw [hv]
          simp
        · exact Or.inl hv
      · intro hv
        rcases hv with hv | hv
        · exact List.mem_cons_of_mem _ hv
        · have hv3 : ((v.2 : Int), (v.1 : Int)) = (sx, sy) := by simpa using hv
          have hveq : v = (sy, sx) := by
            obtain ⟨va, vb⟩ := v
            rw [Prod.mk.injEq] at hv3
            rw [Prod.mk.injEq]
            exact ⟨hv3.2, hv3.1⟩
          rw [hveq]
          exact List.mem_cons_self _ _
    · intro c hc
      have hce : c = (sx, sy) := List.mem_singleton.mp hc
      subst hce
      exact ⟨hland, Relation.ReflTransGen.refl⟩
    · intro q hq
      have hqe : q = (sy, sx) := List.mem_singleton.mp hq
      subst hqe
      simp
  obtain ⟨h1, h2, ext, hext⟩ := bfsLoop_inv w h g visited0 (sx, sy) (w * h + 1) _ _ _ hInv
  exact ⟨h1, h2, ext, hext⟩

theorem scanLoop_inv (w h : Nat) (g : TileGrid) :
    ∀ (cells : List (Int × Int)) (visited : List (Int × Int))
      (comps : List (List (Int × Int))),
    (∀ v ∈ visited, ∃ cp ∈ comps, ((v.2 : Int), (v.1 : Int)) ∈ cp) →
    (∀ cp ∈ comps, ∃ rep rest2, cp = rep :: rest2 ∧ ∀ c ∈ cp,
        landAt w h g c.1 c.2 = true ∧ landReach w h g rep c) →
    (∀ cp ∈ (scanLoop w h g cells visited comps).2, ∃ rep rest2, cp = rep :: rest2 ∧
        ∀ c ∈ cp, landAt w h g c.1 c.2 = true ∧ landReach w h g rep c) ∧
    (∀ yx ∈ cells, landAt w h g yx.2 yx.1 = true →
        ∃ cp ∈ (scanLoop w h g cells visited comps).2, (yx.2, yx.1) ∈ cp) ∧
    ∃ ext, (scanLoop w h g cells visited comps).2 = comps ++ ext := by
  intro cells
  induction cells with
  | nil =>
    intro visited comps hv hs
    exact ⟨hs, fun yx hyx => absurd hyx (List.not_mem_nil _), [], (List.append_nil _).symm⟩
  | cons c rest ih =>
    obtain ⟨y, x⟩ := c
    intro visited comps hv hs
    by_cases hcond : (¬ (visited.contains (y, x) = true) ∧ landAt w h g x y = true)
    · obtain ⟨hb1, hb2, bext, hbext⟩ := bfsFrom_spec w h g visited y x hcond.2
      have hv2 : ∀ v ∈ (bfsFrom w h g visited y x).1,
          ∃ cp ∈ comps ++ [(bfsFrom w h g visited y x).2], ((v.2 : Int), (v.1 : Int)) ∈ cp := by
        intro v hvm
        rcases (hb1 v).mp hvm with hvm2 | hvm2
        · obtain ⟨cp, hcp, hmem⟩ := hv v hvm2
          exact ⟨cp, List.mem_append_left _ hcp, hmem⟩
        · exact ⟨_, List.mem_append_right _ (by simp), hvm2⟩
      have hs2 : ∀ cp ∈ comps ++ [(bfsFrom w h g visited y x).2],
          ∃ rep rest2, cp = rep :: rest2 ∧ ∀ c2 ∈ cp,
            landAt w h g c2.1 c2.2 = true ∧ landReach w h g rep c2 := by
        intro cp hcp
        rcases List.mem_append.mp hcp with hcp2 | hcp2
        · exact hs cp hcp2
        · have hce : cp = (bfsFrom w h g visited y x).2 := List.mem_singleton.mp hcp2
          subst hce
          exact ⟨(x, y), bext, hbext, fun c2 hc2 => hb2 c2 hc2⟩
      obtain ⟨ih1, ih2, ext2, ihext⟩ :=
        ih (bfsFrom w h g visited y x).1 (comps ++ [(bfsFrom w h g visited y x).2]) hv2 hs2
      have hred : scanLoop w h g ((y, x) :: rest) visited comps =
          scanLoop w h g rest (bfsFrom w h g visited y x).1
            (comps ++ [(bfsFrom w h g visited y x).2]) := by
        simp only [scanLoop]
        rw [if_pos hcond]
      rw [hred]
      refine ⟨ih1, ?_, ?_⟩
      · intro yx hyx hlyx
        rcases List.mem_cons.mp hyx with hyx2 | hyx2
        · subst hyx2
          refine ⟨(bfsFrom w h g visited y x).2, ?_, ?_⟩
          · rw [ihext]
            exact List.mem_append_left _ (List.mem_append_right _ (by simp))
          · rw [hbext]
            exact List.mem_cons_self _ _
        · exact ih2 yx hyx2 hlyx
      · refine ⟨[(bfsFrom w h g visited y x).2] ++ ext2, ?_⟩
        rw [ihext, List.append_assoc]
    · have hred : scanLoop w h g ((y, x) :: rest) visited comps =
          scanLoop w h g rest visited comps := by
        simp only [scanLoop]
        rw [if_neg hcond]
      obtain ⟨ih1, ih2, ext2, ihext⟩ := ih visited comps hv hs
      rw [hred]
      refine ⟨ih1, ?_, ext2, ihext⟩
      intro yx hyx hlyx
      rcases List.mem_cons.mp hyx with hyx2 | hyx2
      · subst hyx2
        have hvis : visited.contains (y, x) = true := by
          by_contra hnc
          exact hcond ⟨hnc, hlyx⟩
        have hvm : (y, x) ∈ visited := List.mem_of_elem_eq_true hvis
        obtain ⟨cp, hcp, hmem⟩ := hv (y, x) hvm
        refine ⟨cp, ?_, hmem⟩
        rw [ihext]
        exact List.mem_append_left _ hcp
      · exact ih2 yx hyx2 hlyx

theorem landAt_bounds (w h : Nat) (g : TileGrid) (x y : Int)
    (hl : landAt w h g x y = true) :
    0 ≤ x ∧ x < (w : Int) ∧ 0 ≤ y ∧ y < (h : Int) := by
  rw [landAt_eq_true] at hl
  exact ⟨hl.1, hl.2.1, hl.2.2.1, hl.2.2.2.1⟩

theorem mem_allCellsYX (w h : Nat) (x y : Int) (h1 : 0 ≤ x) (h2 : x < (w : Int))
    (h3 : 0 ≤ y) (h4 : y < (h : Int)) : ((y, x) : Int × Int) ∈ allCellsYX w h := by
  unfold allCellsYX
  rw [List.mem_flatMap]
  refine ⟨y.toNat, by rw [List.mem_range]; omega, ?_⟩
  rw [List.mem_map]
  refine ⟨x.toNat, by rw [List.mem_range]; omega, ?_⟩
  rw [Prod.mk.injEq]
  exact ⟨Int.toNat_of_nonneg h3, Int.toNat_of_nonneg h1⟩

theorem landComponents_spec (w h : Nat) (g : TileGrid) :
    (∀ cp ∈ landComponents w h g, ∃ rep rest2, cp = rep :: rest2 ∧
        ∀ c ∈ cp, landAt w h g c.1 c.2 = true ∧ landReach w h g rep c) ∧
    (∀ x y : Int, landAt w h g x y = true →
        ∃ cp ∈ landComponents w h g, (x, y) ∈ cp) := by
  obtain ⟨h1, h2, _⟩ := scanLoop_inv w h g (allCellsYX w h) [] []
    (fun v hv => absurd hv (List.not_mem_nil _))
    (fun cp hcp => absurd hcp (List.not_mem_nil _))
  refine ⟨h1, ?_⟩
  intro x y hl
  obtain ⟨hc1, hc2, hc3, hc4⟩ := landAt_bounds w h g x y hl
  exact h2 (y, x) (mem_allCellsYX w h x y hc1 hc2 hc3 hc4) hl

theorem carve_fold_spec (w h : Nat) (mainRep : Int × Int)
    (hmb : 0 ≤ mainRep.1 ∧ mainRep.1 < (w : Int) ∧ 0 ≤ mainRep.2 ∧ mainRep.2 < (h : Int)) :
    ∀ (comps : List (List (Int × Int))) (acc g0 : TileGrid),
    gridWF w h acc →
    (∀ a b : Int, landAt w h g0 a b = true → landAt w h acc a b = true) →
    (∀ cp ∈ comps, ∀ rep rest2, cp = rep :: rest2 →
        0 ≤ rep.1 ∧ rep.1 < (w : Int) ∧ 0 ≤ rep.2 ∧ rep.2 < (h : Int)) →
    (∀ c : Int × Int, landAt w h acc c.1 c.2 = true →
        landAt w h g0 c.1 c.2 = true ∨ landReach w h acc c (mainRep.1, mainRep.2)) →
    gridWF w h (comps.foldl (fun acc2 comp => match comp with
        | [] => acc2
        | rep :: _ => carve_path acc2 rep.1 rep.2 mainRep.1 mainRep.2) acc) ∧
    (∀ a b : Int, landAt w h acc a b = true →
        landAt w h (comps.foldl (fun acc2 comp => match comp with
          | [] => acc2
          | rep :: _ => carve_path acc2 rep.1 rep.2 mainRep.1 mainRep.2) acc) a b = true) ∧
    (∀ cp ∈ comps, ∀ rep rest2, cp = rep :: rest2 →
        landReach w h (comps.foldl (fun acc2 comp => match comp with
          | [] => acc2
          | rep :: _ => carve_path acc2 rep.1 rep.2 mainRep.1 mainRep.2) acc)
          (rep.1, rep.2) (mainRep.1, mainRep.2)) ∧
    (∀ c : Int × Int, landAt w h (comps.foldl (fun acc2 comp => match comp with
          | [] => acc2
          | rep :: _ => carve_path acc2 rep.1 rep.2 mainRep.1 mainRep.2) acc) c.1 c.2 = true →
        landAt w h g0 c.1 c.2 = true ∨
        landReach w h (comps.foldl (fun acc2 comp => match comp with
          | [] => acc2
          | rep :: _ => carve_path acc2 rep.1 rep.2 mainRep.1 mainRep.2) acc)
          c (mainRep.1, mainRep.2)) := by
  intro comps
  induction comps with
  | nil =>
    intro acc g0 hwf hmono hreps hQ
    exact ⟨hwf, fun a b hl => hl,
      fun cp hcp => absurd hcp (List.not_mem_nil _), hQ⟩
  | cons cp rest ih =>
    intro acc g0 hwf hmono hreps hQ
    cases cp with
    | nil =>
      rw [List.foldl_cons]
      obtain ⟨rwf, rmono, rreach, rQ⟩ := ih acc g0 hwf hmono
        (fun cp2 hcp2 => hreps cp2 (List.mem_cons_of_mem _ hcp2)) hQ
      refine ⟨rwf, rmono, ?_, rQ⟩
      intro cp2 hcp2 rep rest2 hshape
      rcases List.mem_cons.mp hcp2 with hcp3 | hcp3
      · rw [hcp3] at hshape
        cases hshape
      · exact rreach cp2 hcp3 rep rest2 hshape
    | cons rep rtail =>
      rw [List.foldl_cons]
      have hrb := hreps (rep :: rtail) (List.mem_cons_self _ _) rep rtail rfl
      obtain ⟨cwf, cmono, creach, ccases⟩ :=
        carve_path_spec w h acc rep.1 rep.2 mainRep.1 mainRep.2 hwf hrb hmb
      have hQ2 : ∀ c : Int × Int,
          landAt w h (carve_path acc rep.1 rep.2 mainRep.1 mainRep.2) c.1 c.2 = true →
          landAt w h g0 c.1 c.2 = true ∨
          landReach w h (carve_path acc rep.1 rep.2 mainRep.1 mainRep.2) c
            (mainRep.1, mainRep.2) := by
        intro c hc
        rcases ccases c.1 c.2 hc with hc2 | hc2
        · rcases hQ c hc2 with hc3 | hc3
          · exact Or.inl hc3
          · exact Or.inr (landReach_mono w h acc _ cmono hc3)
        · exact Or.inr hc2
      obtain ⟨rwf, rmono, rreach, rQ⟩ :=
        ih (carve_path acc rep.1 rep.2 mainRep.1 mainRep.2) g0 cwf
          (fun a b hl => cmono a b (hmono a b hl))
          (fun cp2 hcp2 => hreps cp2 (List.mem_cons_of_mem _ hcp2)) hQ2
      refine ⟨rwf, fun a b hl => rmono a b (cmono a b hl), ?_, rQ⟩
      intro cp2 hcp2 rep2 rest2 hshape
      rcases List.mem_cons.mp hcp2 with hcp3 | hcp3
      · have hrep2 : rep2 = rep := by
          rw [hcp3] at hshape
          exact (List.cons.injEq _ _ _ _).mp hshape.symm |>.1
        rw [hrep2]
        exact landReach_mono w h _ _ rmono creach
      · exact rreach cp2 hcp3 rep2 rest2 hshape

theorem ensureConnectedLand_connected (w h : Nat) (g : TileGrid)
    (hwf : gridWF w h g) : landConnected w h (ensureConnectedLand w h g) := by
  obtain ⟨hsound, hcompl⟩ := landComponents_spec w h g
  unfold ensureConnectedLand
  dsimp only []
  split
  · -- at most one component: the grid is returned unchanged
    rename_i hle
    intro a b ha hb
    obtain ⟨cpa, hcpa, hmema⟩ := hcompl a.1 a.2 ha
    obtain ⟨cpb, hcpb, hmemb⟩ := hcompl b.1 b.2 hb
    have heq : cpa = cpb := by
      rcases hcps : landComponents w h g with _ | ⟨c0, rest⟩
      · rw [hcps] at hcpa
        exact absurd hcpa (List.not_mem_nil _)
      · rw [hcps] at hcpa hcpb hle
        have hrest : rest = [] := by
          cases rest with
          | nil => rfl
          | cons r rs => simp at hle
        subst hrest
        have ha2 : cpa = c0 := by simpa using hcpa
        have hb2 : cpb = c0 := by simpa using hcpb
        rw [ha2, hb2]
    subst heq
    obtain ⟨rep, rest2, hshape, hprop⟩ := hsound cpa hcpa
    exact (landReach_symm w h g (hprop _ hmema).2).trans (hprop _ hmemb).2
  · rename_i hgt
    have hperm := List.perm_insertionSort
      (fun a b : List (Int × Int) => b.length ≤ a.length) (landComponents w h g)
    rcases hs : List.insertionSort
        (fun a b : List (Int × Int) => b.length ≤ a.length) (landComponents w h g) with
      _ | ⟨mainComp, restComps⟩
    · rw [hs] at hperm
      have hnil : landComponents w h g = [] := List.perm_nil.mp hperm.symm
      exfalso
      apply hgt
      rw [hnil]
      simp
    · rw [hs] at hperm
      have hmain_mem : mainComp ∈ landComponents w h g :=
        hperm.mem_iff.mp (List.mem_cons_self _ _)
      obtain ⟨mainRep, mrest, hmshape, hmprop⟩ := hsound mainComp hmain_mem
      rw [hmshape]
      show landConnected w h (restComps.foldl (fun acc2 comp => match comp with
        | [] => acc2
        | rep :: _ => carve_path acc2 rep.1 rep.2 mainRep.1 mainRep.2) g)
      have hmland : landAt w h g mainRep.1 mainRep.2 = true := by
        have hm := hmprop mainRep (by rw [hmshape]; exact List.mem_cons_self _ _)
        exact hm.1
      have hmb := landAt_bounds w h g mainRep.1 mainRep.2 hmland
      have hrepbounds : ∀ cp2 ∈ restComps, ∀ rep2 rest2, cp2 = rep2 :: rest2 →
          0 ≤ rep2.1 ∧ rep2.1 < (w : Int) ∧ 0 ≤ rep2.2 ∧ rep2.2 < (h : Int) := by
        intro cp2 hcp2 rep2 rest2 hshape2
        obtain ⟨rep3, rest3, hshape3, hprop3⟩ :=
          hsound cp2 (hperm.mem_iff.mp (List.mem_cons_of_mem _ hcp2))
        have hr23 : rep2 = rep3 := by
          rw [hshape2] at hshape3
          exact ((List.cons.injEq _ _ _ _).mp hshape3).1
        have hland3 : landAt w h g rep3.1 rep3.2 = true :=
          (hprop3 rep3 (by rw [hshape3]; exact List.mem_cons_self _ _)).1
        rw [hr23]
        exact landAt_bounds w h g rep3.1 rep3.2 hland3
      obtain ⟨rwf, rmono, rreach, rQ⟩ := carve_fold_spec w h mainRep
        ⟨hmb.1, hmb.2.1, hmb.2.2.1, hmb.2.2.2⟩ restComps g g hwf
        (fun a b hl => hl) hrepbounds (fun c hc => Or.inl hc)
      have hclaim : ∀ c : Int × Int,
          landAt w h (restComps.foldl (fun acc2 comp => match comp with
            | [] => acc2
            | rep :: _ => carve_path acc2 rep.1 rep.2 mainRep.1 mainRep.2) g) c.1 c.2 = true →
          landReach w h (restComps.foldl (fun acc2 comp => match comp with
            | [] => acc2
            | rep :: _ => carve_path acc2 rep.1 rep.2 mainRep.1 mainRep.2) g) c
            (mainRep.1, mainRep.2) := by
        intro c hc
        rcases rQ c hc with hg2 | hr
        · obtain ⟨cp, hcp, hmemc⟩ := hcompl c.1 c.2 hg2
          have hcp2 : cp ∈ mainComp :: restComps := hperm.mem_iff.mpr hcp
          rcases List.mem_cons.mp hcp2 with hcpm | hcpr
          · subst hcpm
            have hreach_g : landReach w h g (c.1, c.2) mainRep :=
              landReach_symm w h g (hmprop _ hmemc).2
            exact landReach_mono w h g _ rmono hreach_g
          · obtain ⟨rep2, rest2, hshape2, hprop2⟩ := hsound cp hcp
            have h1 : landReach w h g (c.1, c.2) rep2 :=
              landReach_symm w h g (hprop2 _ hmemc).2
            have h2 := rreach cp hcpr rep2 rest2 hshape2
            exact (landReach_mono w h g _ rmono h1).trans h2
        · exact hr
      intro a b ha hb
      exact (hclaim a ha).trans
        (landReach_symm w h _ (hclaim b hb))

theorem foldl_preserve {α β : Type} (P : α → Prop) (f : α → β → α) :
    ∀ (L : List β) (a0 : α), (∀ a b, P a → b ∈ L → P (f a b)) → P a0 →
    P (L.foldl f a0) := by
  intro L
  induction L with
  | nil =>
    intro a0 _ h0
    exact h0
  | cons b rest ih =>
    intro a0 hstep h0
    rw [List.foldl_cons]
    exact ih (f a0 b) (fun a b2 ha hb2 => hstep a b2 ha (List.mem_cons_of_mem _ hb2))
      (hstep a0 b h0 (List.mem_cons_self _ _))

theorem setTileChar_wf (w h : Nat) (g : TileGrid) (y x : Nat) (ch : Char)
    (hwf : gridWF w h g) : gridWF w h (setTileChar g y x ch) := by
  unfold setTileChar
  by_cases hylen : y < g.length
  · refine ⟨by rw [List.length_set]; exact hwf.1, ?_⟩
    intro row hrow
    rcases List.mem_or_eq_of_mem_set hrow with hm | hm
    · exact hwf.2 row hm
    · subst hm
      rw [List.length_set, List.getD_eq_getElem?_getD, List.getElem?_eq_getElem hylen]
      exact hwf.2 _ (List.getElem_mem _)
  · rw [List.set_eq_of_length_le (by omega)]
    exact hwf

theorem smoothCell_wf (w h : Nat) (g : TileGrid) (y x : Nat) (hwf : gridWF w h g) :
    gridWF w h (smoothCell w h g y x) := by
  unfold smoothCell
  dsimp only []
  split
  · exact setTileChar_wf w h g y x '+' hwf
  · split
    · exact setTileChar_wf w h g y x '.' hwf
    · exact hwf

theorem smoothPass_wf (w h : Nat) (g : TileGrid) (hwf : gridWF w h g) :
    gridWF w h (smoothPass w h g) := by
  unfold smoothPass
  apply foldl_preserve (gridWF w h)
  · intro g1 y hg1 _
    apply foldl_preserve (gridWF w h)
    · intro g2 x hg2 _
      exact smoothCell_wf w h g2 y x hg2
    · exact hg1
  · exact hwf

theorem tiles0_wf (w h : Nat) (f : Nat → Nat → Char) :
    gridWF w h ((List.range h).map (fun y => (List.range w).map (fun x => f y x))) := by
  constructor
  · simp
  · intro row hrow
    rw [List.mem_map] at hrow
    obtain ⟨y, _, hrow2⟩ := hrow
    rw [← hrow2]
    simp

theorem generate_eq_ensure (w h : Nat) (noise : List (List ℚ)) (land_target : ℚ)
    (g : TileGrid) (hg : generateFromNoise w h noise land_target = some g) :
    ∃ g1, gridWF w h g1 ∧ g = ensureConnectedLand w h g1 := by
  unfold generateFromNoise at hg
  dsimp only [] at hg
  split at hg
  · cases hg
  · refine ⟨_, ?_, (Option.some.inj hg).symm⟩
    apply smoothPass_wf
    apply smoothPass_wf
    exact tiles0_wf w h _

/-- C4 (amended): every grid `generate` produces (the RNG draws abstracted as
an explicit noise field) has its land tiles forming at most one 4-connected
component — any two land cells are mutually reachable over land.  The land can
however be empty: smoothing can erase every land tile, so "exactly one
(non-empty) component" does not hold universally. -/
theorem generate_land_connected (w h : Nat) (noise : List (List ℚ)) (land_target : ℚ)
    (g : TileGrid) (hg : generateFromNoise w h noise land_target = some g) :
    landConnected w h g := by
  obtain ⟨g1, hwf1, hge⟩ := generate_eq_ensure w h noise land_target g hg
  rw [hge]
  exact ensureConnectedLand_connected w h g1 hwf1

set_option maxRecDepth 40000 in
/-- C4 counterexample: on this 3×3 noise field with land fraction 1/10 the two
terrain-smoothing passes erase every land tile, so `generate` returns an
all-ocean map — the set of land tiles is empty, not a single non-empty
connected component. -/
theorem generate_can_produce_no_land :
    generateFromNoise 3 3 [[0, 0, 0], [0, 1, 0], [0, 0, 0]] (1/10) =
      some [['.', '.', '.'], ['.', '.', '.'], ['.', '.', '.']] ∧
    ([['.', '.', '.'], ['.', '.', '.'], ['.', '.', '.']] : TileGrid).all
      (fun row => row.all (fun c => c == '.')) = true := by
  exact ⟨by decide, by decide⟩

set_option maxRecDepth 40000 in
theorem generate_land_connected_witness : landConnected 1 1 [['+']] :=
  generate_land_connected 1 1 [[1]] 1 [['+']] (by decide)

end Empire
